import Mathlib

/-!
Verification of the flightfuel route-planning engine against its
natural-language specification.

The development shallowly embeds the algorithmic core of the repository:

* `src/routes/views.py`: `calculate_distance_nm` (haversine),
  `get_icao_code`, `validate_airport_code`;
* `src/routes/models.py`: `Route.calculate_coordinates`,
  `Route.calculate_distance`, `Route.calculate_flight_time`, `Route.save`;
* `src/routes/routing.py`: `AirwayRouter.build_graph`,
  `AirwayRouter.find_route`, `FlightRouter.find_nearby_waypoints`,
  `FlightRouter.suggest_routes`.

Modelling conventions:

* Python floats are modelled as elements of a `LinearOrderedField`
  (instantiated at `ℚ` for executable witnesses and at `ℝ` where the
  concrete GEOS geometry is needed).
* The GEOS geometry primitives (`Point.distance(Point)` and
  `Point.distance(LineString)` on SRID 4326 data) compute planar euclidean
  distance in degree space.  The routing code treats them as an external
  geometry collaborator, so the routing functions take them as explicit
  functional parameters `dPt` / `dLine`; the concrete GEOS behaviour is
  modelled separately at `ℝ` (`geosPointDist`, `geosSegDist`) and used
  where a claim depends on the actual metric.
* Python `round(x, n)` rounds half-to-even; it is modelled exactly by
  `pyRoundInt` / `pyRound`.
* Django ORM lookups by `identifier` (a unique column) are modelled as
  `List.find?` over an association table.  `Waypoint.objects.get` on an
  identifier drawn from the table itself always succeeds, so the `getD`
  fallbacks in pair-distance sums are unreachable in the modelled flows.
-/

namespace FlightFuel

/-- A (longitude, latitude) pair in degrees; `x` is longitude, `y` latitude,
matching GEOS `Point(x, y)` with SRID 4326. -/
structure Point (α : Type) where
  x : α
  y : α
deriving DecidableEq, Repr

/-- Python `round(x)` to an integer: round half to even (banker's rounding). -/
def pyRoundInt {α : Type} [LinearOrderedField α] [FloorRing α] (v : α) : ℤ :=
  if v - (⌊v⌋ : α) < 1/2 then ⌊v⌋
  else if 1/2 < v - (⌊v⌋ : α) then ⌊v⌋ + 1
  else if ⌊v⌋ % 2 = 0 then ⌊v⌋ else ⌊v⌋ + 1

/-- Python `round(x, n)`: round to `n` decimal digits, half to even. -/
def pyRound {α : Type} [LinearOrderedField α] [FloorRing α] (v : α) (n : ℕ) : α :=
  (pyRoundInt (v * (10 : α) ^ n) : α) / (10 : α) ^ n

section RoundLemmas

variable {α : Type} [LinearOrderedField α] [FloorRing α]

theorem pyRoundInt_le (v : α) : (pyRoundInt v : α) ≤ v + 1 := by
  unfold pyRoundInt
  have hf : ((⌊v⌋ : ℤ) : α) ≤ v := Int.floor_le v
  split_ifs <;> push_cast <;> linarith

theorem le_pyRoundInt (v : α) : v - 1 ≤ (pyRoundInt v : α) := by
  unfold pyRoundInt
  have hf : v < (⌊v⌋ : ℤ) + 1 := Int.lt_floor_add_one v
  split_ifs <;> push_cast <;> push_cast at hf <;> linarith

theorem pyRound_le (v : α) (n : ℕ) : pyRound v n ≤ v + 1 / (10 : α) ^ n := by
  unfold pyRound
  have hp : (0 : α) < (10 : α) ^ n := by positivity
  rw [div_le_iff₀ hp, add_mul, div_mul_cancel₀ _ hp.ne']
  exact pyRoundInt_le _

theorem le_pyRound (v : α) (n : ℕ) : v - 1 / (10 : α) ^ n ≤ pyRound v n := by
  unfold pyRound
  have hp : (0 : α) < (10 : α) ^ n := by positivity
  rw [le_div_iff₀ hp, sub_mul, div_mul_cancel₀ _ hp.ne']
  exact le_pyRoundInt _

theorem pyRoundInt_intCast (z : ℤ) : pyRoundInt (z : α) = z := by
  unfold pyRoundInt
  rw [Int.floor_intCast]
  simp

theorem pyRound_intCast_div (z : ℤ) (n : ℕ) :
    pyRound ((z : α) / (10 : α) ^ n) n = (z : α) / (10 : α) ^ n := by
  unfold pyRound
  have hp : (0 : α) < (10 : α) ^ n := by positivity
  rw [div_mul_cancel₀ _ hp.ne', pyRoundInt_intCast]

end RoundLemmas

/-! ### `views.calculate_distance_nm`: haversine distance (source of truth) -/

/-- `math.atan2 y x`, restricted faithfully to the quadrants; the haversine
code only ever calls it with non-negative arguments. -/
noncomputable def atan2 (y x : ℝ) : ℝ :=
  if 0 < x then Real.arctan (y / x)
  else if x < 0 then
    (if 0 ≤ y then Real.arctan (y / x) + Real.pi else Real.arctan (y / x) - Real.pi)
  else
    (if 0 < y then Real.pi / 2 else if y < 0 then -(Real.pi / 2) else 0)

/-- The intermediate value `a` of the haversine formula in
`calculate_distance_nm` (`src/routes/views.py`); `dLat`, `dLon` are the
coordinate differences converted to radians. -/
noncomputable def haversineA (c1 c2 : Point ℝ) : ℝ :=
  Real.sin (((c2.y - c1.y) * Real.pi / 180) / 2) *
    Real.sin (((c2.y - c1.y) * Real.pi / 180) / 2) +
  Real.cos (c1.y * Real.pi / 180) * Real.cos (c2.y * Real.pi / 180) *
    (Real.sin (((c2.x - c1.x) * Real.pi / 180) / 2) *
      Real.sin (((c2.x - c1.x) * Real.pi / 180) / 2))

/-- `calculate_distance_nm(coord1, coord2)` from `src/routes/views.py`:
haversine great-circle distance in nautical miles, Earth radius 3440.065,
inputs are (longitude, latitude) pairs in degrees. -/
noncomputable def calculate_distance_nm (c1 c2 : Point ℝ) : ℝ :=
  (3440065 / 1000) *
    (2 * atan2 (Real.sqrt (haversineA c1 c2)) (Real.sqrt (1 - haversineA c1 c2)))

theorem atan2_nonneg {y x : ℝ} (hy : 0 ≤ y) (hx : 0 ≤ x) : 0 ≤ atan2 y x := by
  unfold atan2
  rcases lt_or_eq_of_le hx with h | h
  · rw [if_pos h]
    have : Real.arctan 0 ≤ Real.arctan (y / x) :=
      Real.arctan_strictMono.monotone (by positivity)
    rwa [Real.arctan_zero] at this
  · rw [if_neg (by linarith), if_neg (by linarith)]
    split_ifs with h1 h2
    · positivity
    · linarith
    · exact le_refl 0

theorem atan2_le_pi_div_two {y x : ℝ} (hy : 0 ≤ y) (hx : 0 ≤ x) :
    atan2 y x ≤ Real.pi / 2 := by
  unfold atan2
  rcases lt_or_eq_of_le hx with h | h
  · rw [if_pos h]
    exact (Real.arctan_lt_pi_div_two _).le
  · rw [if_neg (by linarith), if_neg (by linarith)]
    have hpi : 0 < Real.pi := Real.pi_pos
    split_ifs <;> linarith

/-- Any haversine distance is at most `R * π` (half the circumference). -/
theorem calculate_distance_nm_le (c1 c2 : Point ℝ) :
    calculate_distance_nm c1 c2 ≤ (3440065 / 1000) * Real.pi := by
  unfold calculate_distance_nm
  have hb := atan2_le_pi_div_two (Real.sqrt_nonneg (haversineA c1 c2))
    (Real.sqrt_nonneg (1 - haversineA c1 c2))
  nlinarith [Real.pi_pos, hb]

/-! ### GEOS geometry model (planar degree-space distances, at `ℝ`) -/

/-- GEOS `Point.distance(Point)` on SRID 4326 data: planar euclidean
distance in degree space. -/
noncomputable def geosPointDist (p q : Point ℝ) : ℝ :=
  Real.sqrt ((p.x - q.x) ^ 2 + (p.y - q.y) ^ 2)

/-- GEOS `Point.distance(LineString([a, b]))`: planar distance from `p` to
the segment `a b` (project onto the segment, clamp, measure euclidean). -/
noncomputable def geosSegDist (p a b : Point ℝ) : ℝ :=
  if (b.x - a.x) ^ 2 + (b.y - a.y) ^ 2 = 0 then geosPointDist p a
  else
    let t := ((p.x - a.x) * (b.x - a.x) + (p.y - a.y) * (b.y - a.y)) /
      ((b.x - a.x) ^ 2 + (b.y - a.y) ^ 2)
    let tc := max 0 (min 1 t)
    geosPointDist p ⟨a.x + tc * (b.x - a.x), a.y + tc * (b.y - a.y)⟩

/-! ### `models.py`: `Waypoint` and `Route` normalization (`Route.save`) -/

/-- A row of the `waypoints` table: the fields the core reads. -/
structure Waypoint (α : Type) where
  identifier : String
  name : String
  location : Point α
  is_active : Bool
deriving Repr

/-- `Waypoint.objects.filter(identifier=code).first()` / `.get(identifier=code)`
over a pre-fetched table (identifiers are a unique column). -/
def lookupWp {α : Type} (table : List (Waypoint α)) (code : String) :
    Option (Waypoint α) :=
  table.find? (fun w => w.identifier == code)

/-- `Route.calculate_coordinates` (`src/routes/models.py`): the polyline of
the locations of the waypoints that resolve, in list order; `none` when the
computed point list is shorter than 2 (the code returns `None` and the
caller keeps the previous `coordinates`). -/
def calculate_coordinates {α : Type} (table : List (Waypoint α))
    (waypoints : List String) : Option (List (Point α)) :=
  if waypoints.length < 2 then none
  else
    let pts := waypoints.filterMap (fun wid => (lookupWp table wid).map (·.location))
    if 2 ≤ pts.length then some pts else none

/-- The loop body of `Route.calculate_distance`: walk consecutive pairs of
the waypoint list and add `wp1.location.distance(wp2.location) * 60.11`
only when both identifiers resolve. -/
def pairGapSum {α : Type} [LinearOrderedField α] (dPt : Point α → Point α → α)
    (table : List (Waypoint α)) : List String → α
  | a :: b :: rest =>
    (match lookupWp table a, lookupWp table b with
     | some w1, some w2 => dPt w1.location w2.location * (6011 / 100)
     | _, _ => 0) + pairGapSum dPt table (b :: rest)
  | _ => 0

/-- `Route.calculate_distance` (`src/routes/models.py`): degree-space
distance of each resolvable consecutive pair, scaled by 60.11 and rounded
to 2 decimals.  `dPt` is the GEOS point-to-point distance collaborator. -/
def calculate_distance {α : Type} [LinearOrderedField α] [FloorRing α]
    (dPt : Point α → Point α → α) (table : List (Waypoint α))
    (waypoints : List String) : α :=
  if waypoints.length < 2 then 0
  else pyRound (pairGapSum dPt table waypoints) 2

/-- Left-pad a non-negative integer to two digits, Python `f"{n:02d}"`. -/
def pad2 (n : ℤ) : String :=
  if n < 10 ∧ 0 ≤ n then "0" ++ toString n else toString n

/-- `Route.calculate_flight_time`: `total_distance / 450` knots, rendered
as `HH:MM` (empty when the distance is not positive). -/
def calculate_flight_time {α : Type} [LinearOrderedField α] [FloorRing α]
    (total_distance : α) : String :=
  if total_distance ≤ 0 then ""
  else
    let hours := total_distance / 450
    let hour_int : ℤ := ⌊hours⌋
    let minute_int : ℤ := ⌊(hours - (hour_int : α)) * 60⌋
    pad2 hour_int ++ ":" ++ pad2 minute_int

/-- The endpoint-injection step at the end of `Route.save`: insert the
departure at the front when absent, append the arrival when absent;
a falsy (empty) waypoint list is left untouched. -/
def injectEndpoints (departure arrival : String) (waypoints : List String) :
    List String :=
  if waypoints.isEmpty then waypoints
  else
    let w1 := if departure ∈ waypoints then waypoints else departure :: waypoints
    if arrival ∈ w1 then w1 else w1 ++ [arrival]

/-- The persisted fields of a `Route` row that `Route.save` computes. -/
structure Route (α : Type) where
  name : String
  departure : String
  arrival : String
  waypoints : List String
  coordinates : Option (List (Point α))
  total_distance : α
  flight_time : String
deriving Repr

/-- `Route.save` (`src/routes/models.py`): default the name, recompute
`coordinates` and `total_distance` when at least 2 waypoints are listed,
derive `flight_time` when absent, then inject missing endpoints.  Note the
injection happens after the polyline/distance computation. -/
def routeSave {α : Type} [LinearOrderedField α] [FloorRing α]
    (dPt : Point α → Point α → α) (table : List (Waypoint α)) (r : Route α) :
    Route α :=
  let name := if r.name = "" then r.departure ++ "-" ++ r.arrival else r.name
  let coords :=
    if ¬ r.waypoints.isEmpty ∧ 2 ≤ r.waypoints.length then
      match calculate_coordinates table r.waypoints with
      | some c => some c
      | none => r.coordinates
    else r.coordinates
  let total :=
    if ¬ r.waypoints.isEmpty ∧ 2 ≤ r.waypoints.length then
      calculate_distance dPt table r.waypoints
    else r.total_distance
  let ftime :=
    if 0 < total ∧ r.flight_time = "" then calculate_flight_time total
    else r.flight_time
  { r with
    name := name
    coordinates := coords
    total_distance := total
    flight_time := ftime
    waypoints := injectEndpoints r.departure r.arrival r.waypoints }

/-! ### `routing.py`: `AirwayRouter` (graph construction and pathfinding) -/

/-- A row of the `airway_segments` table, with foreign keys resolved to
identifiers (`select_related` in `build_graph`). -/
structure Segment (α : Type) where
  fromW : String
  toW : String
  distance : α
  airway : String
deriving Repr

/-- An undirected weighted labelled edge of the `networkx` graph. -/
structure Edge (α : Type) where
  a : String
  b : String
  weight : α
  airway : String
deriving Repr, DecidableEq

/-- A `networkx.Graph` as its edge list (at most one edge per unordered
node pair, maintained by `addEdge`). -/
abbrev Graph (α : Type) := List (Edge α)

/-- Does edge `e` connect the unordered pair `u v`? -/
def edgeMatches {α : Type} (e : Edge α) (u v : String) : Bool :=
  (e.a == u && e.b == v) || (e.a == v && e.b == u)

/-- `networkx.Graph.add_edge(u, v, weight=w, airway=aw)`: if an edge between
`u` and `v` exists its attributes are overwritten, otherwise a new edge is
appended. -/
def addEdge {α : Type} (g : Graph α) (u v : String) (w : α) (aw : String) :
    Graph α :=
  if (g.find? (fun e => edgeMatches e u v)).isSome then
    g.map (fun e => if edgeMatches e u v then { e with weight := w, airway := aw } else e)
  else g ++ [⟨u, v, w, aw⟩]

/-- `AirwayRouter.build_graph`: one `add_edge` per stored airway segment, in
table order. -/
def build_graph {α : Type} (segments : List (Segment α)) : Graph α :=
  segments.foldl (fun g s => addEdge g s.fromW s.toW s.distance s.airway) []

/-- Lookup of the (unique) edge between `u` and `v`;
`graph[u][v]` in the Python code. -/
def findEdge {α : Type} (g : Graph α) (u v : String) : Option (Edge α) :=
  g.find? (fun e => edgeMatches e u v)

/-- The node set of the graph, as the list of edge endpoints
(`u in self.graph` membership test). -/
def nodesList {α : Type} (g : Graph α) : List String :=
  g.flatMap (fun e => [e.a, e.b])

/-- Boolean adjacency: is there an edge between `u` and `v`? -/
def adjB {α : Type} (g : Graph α) (u v : String) : Bool :=
  (findEdge g u v).isSome

/-- Propositional adjacency relation of the graph. -/
def adjRel {α : Type} (g : Graph α) (u v : String) : Prop :=
  adjB g u v = true

/-- Graph connectivity: reflexive-transitive closure of adjacency.  This is
the specification-level notion "a connecting path exists". -/
def gConnected {α : Type} (g : Graph α) (s t : String) : Prop :=
  Relation.ReflTransGen (adjRel g) s t

/-- All simple paths from `cur` to `t` whose intermediate nodes are drawn
(without repetition) from `avail`; `fuel` bounds the recursion depth and is
sufficient whenever `avail.length ≤ fuel`. -/
def pathsFrom {α : Type} (g : Graph α) (t : String) :
    ℕ → String → List String → List (List String)
  | 0, cur, _ => if cur = t then [[cur]] else []
  | fuel + 1, cur, avail =>
    if cur = t then [[cur]]
    else
      (avail.filter (fun n => adjB g cur n)).flatMap
        (fun n => (pathsFrom g t fuel n (avail.erase n)).map (fun p => cur :: p))

/-- Total weight of a node path: `graph[p[i]][p[i+1]]['weight']` summed over
consecutive pairs (the lookup never fails on a path of adjacent nodes). -/
def pathWeight {α : Type} [LinearOrderedField α] (g : Graph α) :
    List String → α
  | a :: b :: rest => ((findEdge g a b).map Edge.weight).getD 0 + pathWeight g (b :: rest)
  | _ => 0

/-- The airway label of each traversed edge, in traversal order
(`edge_data.get('airway', 'UNKNOWN')`). -/
def pathAirways {α : Type} (g : Graph α) : List String → List String
  | a :: b :: rest =>
    ((findEdge g a b).map Edge.airway).getD "UNKNOWN" :: pathAirways g (b :: rest)
  | _ => []

/-- The `airways_used` accumulation loop: append an identifier only when it
is not already collected. -/
def dedupFirst (l : List String) : List String :=
  l.foldl (fun acc x => if x ∈ acc then acc else acc ++ [x]) []

/-- First-occurrence de-duplication, written directly from the
specification's words: keep the first occurrence of each identifier, in
order.  Used to characterize `dedupFirst`. -/
def specDedup : List String → List String
  | [] => []
  | x :: xs => x :: specDedup (xs.filter (fun y => y ≠ x))
termination_by l => l.length
decreasing_by
  simp only [List.length_cons]
  exact Nat.lt_succ_of_le (List.length_filter_le _ _)

/-- First element of a non-empty list of candidate paths with minimal
weight (deterministic stand-in for the library's unspecified tie-break). -/
def minBy {α : Type} [LinearOrderedField α] (w : List String → α) :
    List (List String) → Option (List String)
  | [] => none
  | p :: ps => some (ps.foldl (fun best q => if w q < w best then q else best) p)

/-- The result dictionary of `AirwayRouter.find_route`. -/
structure RouteResult (α : Type) where
  waypoints : List String
  total_distance : α
  airways_used : List String
  segment_count : ℕ
deriving Repr, DecidableEq

/-- `AirwayRouter.find_route` (`src/routes/routing.py`): `None` when either
endpoint is not a graph node or no path connects them; otherwise a
minimal-weight simple path together with its summed edge weights and the
first-occurrence list of traversed airway identifiers. -/
def find_route {α : Type} [LinearOrderedField α] (g : Graph α)
    (departure arrival : String) : Option (RouteResult α) :=
  if departure ∈ nodesList g ∧ arrival ∈ nodesList g then
    match minBy (pathWeight g)
        (pathsFrom g arrival
          ((nodesList g).dedup.filter (fun n => n ≠ departure)).length
          departure ((nodesList g).dedup.filter (fun n => n ≠ departure))) with
    | some p =>
      some { waypoints := p
             total_distance := pathWeight g p
             airways_used := dedupFirst (pathAirways g p)
             segment_count := p.length - 1 }
    | none => none
  else none

/-! ### `routing.py`: `FlightRouter` (corridor search and suggestions) -/

/-- An element of the `nearby_points` list built by
`FlightRouter.find_nearby_waypoints`: the stored `distance_to_line_nm` and
`distance_to_start_nm` are the rounded-to-1-decimal dictionary values. -/
structure NearbyEntry (α : Type) where
  wp : Waypoint α
  distance_to_line_nm : α
  distance_to_start_nm : α
deriving Repr

/-- The key order used by `sorted(..., key=lambda x: (line, start))`:
lexicographic on the stored (rounded) pair. -/
def keyLE {α : Type} [LinearOrderedField α] (e f : NearbyEntry α) : Prop :=
  e.distance_to_line_nm < f.distance_to_line_nm ∨
    (e.distance_to_line_nm = f.distance_to_line_nm ∧
      e.distance_to_start_nm ≤ f.distance_to_start_nm)

instance {α : Type} [LinearOrderedField α] : DecidableRel (keyLE (α := α)) :=
  fun e f => inferInstanceAs (Decidable (_ ∨ _))

instance {α : Type} [LinearOrderedField α] : IsTotal (NearbyEntry α) keyLE where
  total e f := by
    unfold keyLE
    rcases lt_trichotomy e.distance_to_line_nm f.distance_to_line_nm with h | h | h
    · exact Or.inl (Or.inl h)
    · rcases le_total e.distance_to_start_nm f.distance_to_start_nm with h2 | h2
      · exact Or.inl (Or.inr ⟨h, h2⟩)
      · exact Or.inr (Or.inr ⟨h.symm, h2⟩)
    · exact Or.inr (Or.inl h)

instance {α : Type} [LinearOrderedField α] : IsTrans (NearbyEntry α) keyLE where
  trans e f g hef hfg := by
    unfold keyLE at *
    rcases hef with h1 | ⟨h1, h1'⟩ <;> rcases hfg with h2 | ⟨h2, h2'⟩
    · exact Or.inl (h1.trans h2)
    · exact Or.inl (h2 ▸ h1)
    · exact Or.inl (h1 ▸ h2)
    · exact Or.inr ⟨h1.trans h2, h1'.trans h2'⟩

/-- `FlightRouter.find_nearby_waypoints` (`src/routes/routing.py`): keep
every active waypoint whose degree-space distance to the segment
`point1 point2`, scaled by 60.11, is at most `max_distance_nm`; record the
rounded line/start distances and sort by them.  `dLine p a b` is the GEOS
`p.distance(LineString([a, b]))` collaborator and `dPt` the point-to-point
one.  (The Python `if not point1 or not point2` guard handles null inputs,
which the types here exclude.) -/
def find_nearby_waypoints {α : Type} [LinearOrderedField α] [FloorRing α]
    (dPt : Point α → Point α → α) (dLine : Point α → Point α → Point α → α)
    (table : List (Waypoint α)) (point1 point2 : Point α)
    (max_distance_nm : α) : List (NearbyEntry α) :=
  ((table.filter (fun w => w.is_active)).filterMap (fun w =>
    if dLine w.location point1 point2 * (6011 / 100) ≤ max_distance_nm then
      some { wp := w
             distance_to_line_nm := pyRound (dLine w.location point1 point2 * (6011 / 100)) 1
             distance_to_start_nm := pyRound (dPt w.location point1 * (6011 / 100)) 1 }
    else none)).insertionSort keyLE

/-- One route suggestion dictionary (cosmetic constant string fields such as
`name`, `description`, `complexity`, `fuel_efficiency` are omitted). -/
structure Suggestion (α : Type) where
  stype : String
  waypoints : List String
  total_distance_nm : α
  flight_time_min : ℤ
  intermediate_points : Option (List String) := none
  mid_point : Option String := none
deriving Repr

/-- The result of `FlightRouter.suggest_routes` when both endpoints
resolve. -/
structure SuggestResult (α : Type) where
  departure : String
  arrival : String
  departure_name : String
  arrival_name : String
  direct_distance_nm : α
  suggestions : List (Suggestion α)
  nearby_waypoints_count : ℕ
  max_deviation_nm : α
deriving Repr

/-- Sum of `wp1.location.distance(wp2.location) * 60.11` over consecutive
identifier pairs, re-querying the table per identifier (the `getD 0`
branch is unreachable: the identifiers come from the table itself). -/
def pairDistSum {α : Type} [LinearOrderedField α]
    (dPt : Point α → Point α → α) (table : List (Waypoint α)) :
    List String → α
  | a :: b :: rest =>
    (match lookupWp table a, lookupWp table b with
     | some w1, some w2 => dPt w1.location w2.location * (6011 / 100)
     | _, _ => 0) + pairDistSum dPt table (b :: rest)
  | _ => 0

/-- The corridor-fix selection loop of the `VIA_WAYPOINTS` block: first
(at most) 2 ranked fixes whose stored distance-from-start lies strictly
between 50 and `direct − 50`. -/
def viaSelected {α : Type} [LinearOrderedField α]
    (nearby : List (NearbyEntry α)) (direct_distance_nm : α) :
    List (Waypoint α) :=
  ((nearby.filter (fun p =>
      decide (50 < p.distance_to_start_nm ∧
        p.distance_to_start_nm < direct_distance_nm - 50))).take 2).map (·.wp)

/-- The `VIA_WAYPOINTS` suggestion, when the corridor produced candidates
and the selection is non-empty. -/
def viaSuggestion {α : Type} [LinearOrderedField α] [FloorRing α]
    (dPt : Point α → Point α → α) (table : List (Waypoint α))
    (departure_id arrival_id : String) (direct_distance_nm : α)
    (nearby : List (NearbyEntry α)) : Option (Suggestion α) :=
  if nearby.isEmpty then none
  else if (viaSelected nearby direct_distance_nm).isEmpty then none
  else
    some { stype := "VIA_WAYPOINTS"
           waypoints := departure_id ::
             (viaSelected nearby direct_distance_nm).map (·.identifier) ++ [arrival_id]
           total_distance_nm := pyRound (pairDistSum dPt table
             (departure_id ::
               (viaSelected nearby direct_distance_nm).map (·.identifier) ++ [arrival_id])) 1
           flight_time_min := pyRoundInt ((pairDistSum dPt table
             (departure_id ::
               (viaSelected nearby direct_distance_nm).map (·.identifier) ++ [arrival_id]))
             / 470 * 60)
           intermediate_points :=
             some ((viaSelected nearby direct_distance_nm).map (·.identifier)) }

/-- The `closest_to_mid` scan of the `HYBRID` block: running minimum of
`|stored start distance − mid|` over entries whose stored line distance is
below 50, in ranked order, strict improvement only. -/
def closestToMid {α : Type} [LinearOrderedField α]
    (nearby : List (NearbyEntry α)) (mid_distance : α) :
    Option (α × NearbyEntry α) :=
  nearby.foldl (fun acc p =>
    let diff := |p.distance_to_start_nm - mid_distance|
    match acc with
    | none =>
      -- `min_diff` is still `float('inf')`, so `diff < min_diff` holds.
      if p.distance_to_line_nm < 50 then some (diff, p) else acc
    | some (min_diff, _) =>
      if diff < min_diff ∧ p.distance_to_line_nm < 50 then some (diff, p) else acc)
    none

/-- The `HYBRID` suggestion, when the corridor produced candidates and a
fix close to the route midpoint exists. -/
def hybridSuggestion {α : Type} [LinearOrderedField α] [FloorRing α]
    (dPt : Point α → Point α → α) (table : List (Waypoint α))
    (departure_id arrival_id : String) (direct_distance_nm : α)
    (nearby : List (NearbyEntry α)) : Option (Suggestion α) :=
  if nearby.isEmpty then none
  else
    match closestToMid nearby (direct_distance_nm / 2) with
    | none => none
    | some (_, p) =>
      some { stype := "HYBRID"
             waypoints := [departure_id, p.wp.identifier, arrival_id]
             total_distance_nm := pyRound (pairDistSum dPt table
               [departure_id, p.wp.identifier, arrival_id]) 1
             flight_time_min := pyRoundInt ((pairDistSum dPt table
               [departure_id, p.wp.identifier, arrival_id]) / 475 * 60)
             mid_point := some p.wp.identifier }

/-- The `DIRECT` suggestion (always constructed). -/
def directSuggestion {α : Type} [LinearOrderedField α] [FloorRing α]
    (departure_id arrival_id : String) (direct_distance_nm : α) :
    Suggestion α :=
  { stype := "DIRECT"
    waypoints := [departure_id, arrival_id]
    total_distance_nm := pyRound direct_distance_nm 1
    flight_time_min := pyRoundInt (direct_distance_nm / 480 * 60) }

/-- The `AIRWAY_NETWORK` suggestion, when the network router found a path. -/
def airwaySuggestion {α : Type} [LinearOrderedField α] [FloorRing α]
    (g : Graph α) (departure_id arrival_id : String) : Option (Suggestion α) :=
  (find_route g departure_id arrival_id).map (fun r : RouteResult α =>
    { stype := "AIRWAY_NETWORK"
      waypoints := r.waypoints
      total_distance_nm := pyRound r.total_distance 1
      flight_time_min := pyRoundInt (r.total_distance / 460 * 60) })

/-- `FlightRouter.suggest_routes` (`src/routes/routing.py`): `none` models
the error dictionary returned when either endpoint identifier does not
resolve to a waypoint row; otherwise the assembled suggestion set. -/
def suggest_routes {α : Type} [LinearOrderedField α] [FloorRing α]
    (dPt : Point α → Point α → α) (dLine : Point α → Point α → Point α → α)
    (table : List (Waypoint α)) (segments : List (Segment α))
    (departure_id arrival_id : String) (max_deviation_nm : α) :
    Option (SuggestResult α) :=
  match lookupWp table departure_id, lookupWp table arrival_id with
  | some departure_wp, some arrival_wp =>
    some { departure := departure_id
           arrival := arrival_id
           departure_name := departure_wp.name
           arrival_name := arrival_wp.name
           direct_distance_nm :=
             pyRound (dPt departure_wp.location arrival_wp.location * (6011 / 100)) 1
           suggestions :=
             directSuggestion departure_id arrival_id
                 (dPt departure_wp.location arrival_wp.location * (6011 / 100)) ::
               ((airwaySuggestion (build_graph segments) departure_id arrival_id).toList ++
                (viaSuggestion dPt table departure_id arrival_id
                  (dPt departure_wp.location arrival_wp.location * (6011 / 100))
                  (find_nearby_waypoints dPt dLine table
                    departure_wp.location arrival_wp.location max_deviation_nm)).toList ++
                (hybridSuggestion dPt table departure_id arrival_id
                  (dPt departure_wp.location arrival_wp.location * (6011 / 100))
                  (find_nearby_waypoints dPt dLine table
                    departure_wp.location arrival_wp.location max_deviation_nm)).toList)
           nearby_waypoints_count :=
             (find_nearby_waypoints dPt dLine table
               departure_wp.location arrival_wp.location max_deviation_nm).length
           max_deviation_nm := max_deviation_nm }
  | _, _ => none

/-! ### `views.py`: airport code resolution -/

/-- A row of the airport directory: the code columns the resolver reads. -/
structure Airport where
  icao_code : String
  iata_code : String
deriving Repr, DecidableEq

/-- `Airport.objects.filter(Q(icao_code=c) | Q(iata_code=c)).first()`. -/
def findAirportEither (directory : List Airport) (c : String) : Option Airport :=
  directory.find? (fun a => a.icao_code == c || a.iata_code == c)

/-- `Airport.objects.filter(iata_code=c).first()`. -/
def findAirportIata (directory : List Airport) (c : String) : Option Airport :=
  directory.find? (fun a => a.iata_code == c)

/-- Python `code.upper()` restricted to its ASCII action (the directory
codes are ASCII), written over the character list so that it evaluates. -/
def pyUpper (s : String) : String := ⟨s.data.map Char.toUpper⟩

/-- Python `code.strip()`: remove leading and trailing whitespace. -/
def pyStrip (s : String) : String :=
  ⟨((s.data.dropWhile Char.isWhitespace).reverse.dropWhile Char.isWhitespace).reverse⟩

/-- The input normalization `code.upper().strip()` shared by
`get_icao_code` and `validate_airport_code`. -/
def normCode (code : String) : String := pyStrip (pyUpper code)

/-- Python `c.isalpha()` for the (already nonempty-checked) code. -/
def allAlpha (s : String) : Bool := s.data.all Char.isAlpha

/-- `len(code)`. -/
def strLen (s : String) : ℕ := s.data.length

/-- `get_icao_code(code, return_original_if_not_found)` from
`src/routes/views.py`: trim/upper-case, then resolve 4-letter alphabetic
codes by ICAO-or-IATA and 3-letter alphabetic codes by IATA; `none` models
Python `None`. -/
def get_icao_code (directory : List Airport) (code : String)
    (return_original_if_not_found : Bool := true) : Option String :=
  if code = "" then none
  else if strLen (normCode code) = 4 ∧ allAlpha (normCode code) = true then
    match findAirportEither directory (normCode code) with
    | some a => some a.icao_code
    | none => some (normCode code)
  else if strLen (normCode code) = 3 ∧ allAlpha (normCode code) = true then
    match findAirportIata directory (normCode code) with
    | some a =>
      if a.icao_code ≠ "" then some a.icao_code
      else if return_original_if_not_found then some (normCode code) else none
    | none => if return_original_if_not_found then some (normCode code) else none
  else if return_original_if_not_found then some (normCode code) else none

/-- The outcome of `validate_airport_code` (`error`/`suggestion` texts and
the airport record are omitted; `icao` is the converted code when valid). -/
structure Validation where
  valid : Bool
  icao : Option String := none
deriving Repr, DecidableEq

/-- `validate_airport_code(code)` from `src/routes/views.py`. -/
def validate_airport_code (directory : List Airport) (code : String) :
    Validation :=
  if code = "" then { valid := false }
  else if ¬ (strLen (normCode code) = 3 ∨ strLen (normCode code) = 4) then
    { valid := false }
  else if ¬ allAlpha (normCode code) = true then { valid := false }
  else
    match get_icao_code directory (normCode code) with
    | none => { valid := false }
    | some icao => { valid := true, icao := some icao }

/-! ### Claim C10: symmetry and zero behaviour of `calculate_distance_nm` -/

theorem haversineA_comm (a b : Point ℝ) : haversineA a b = haversineA b a := by
  unfold haversineA
  have h1 : ((a.y - b.y) * Real.pi / 180) / 2 = -(((b.y - a.y) * Real.pi / 180) / 2) := by
    ring
  have h2 : ((a.x - b.x) * Real.pi / 180) / 2 = -(((b.x - a.x) * Real.pi / 180) / 2) := by
    ring
  rw [h1, h2, Real.sin_neg, Real.sin_neg]
  ring

theorem haversineA_self (a : Point ℝ) : haversineA a a = 0 := by
  unfold haversineA
  simp

theorem atan2_zero_one : atan2 0 1 = 0 := by
  unfold atan2
  rw [if_pos one_pos]
  simp [Real.arctan_zero]

theorem calculate_distance_nm_self (a : Point ℝ) : calculate_distance_nm a a = 0 := by
  unfold calculate_distance_nm
  rw [haversineA_self]
  simp [atan2_zero_one]

/-- C10 (amended): `calculate_distance_nm` is symmetric and vanishes on
identical coordinate pairs; the "zero only if identical" direction is false
(see the counterexample) because distinct coordinate pairs that denote the
same point on the sphere, such as two longitudes at a pole, also give 0. -/
theorem c10_distance_symm_and_zero_on_diagonal :
    (∀ a b : Point ℝ, calculate_distance_nm a b = calculate_distance_nm b a) ∧
    (∀ a : Point ℝ, calculate_distance_nm a a = 0) := by
  constructor
  · intro a b
    unfold calculate_distance_nm
    rw [haversineA_comm]
  · exact calculate_distance_nm_self

/-- C10 (counterexample): the two distinct coordinate pairs `(0, 90)` and
`(10, 90)` (both the north pole) are at `calculate_distance_nm` zero, so
"zero iff identical" fails as stated. -/
theorem c10_counterexample_pole :
    calculate_distance_nm ⟨0, 90⟩ ⟨10, 90⟩ = 0 ∧
      (⟨0, 90⟩ : Point ℝ) ≠ (⟨10, 90⟩ : Point ℝ) := by
  constructor
  · unfold calculate_distance_nm
    have hA : haversineA ⟨0, 90⟩ ⟨10, 90⟩ = 0 := by
      unfold haversineA
      have h90 : (90 : ℝ) * Real.pi / 180 = Real.pi / 2 := by ring
      simp [h90, Real.cos_pi_div_two]
    rw [hA]
    simp [atan2_zero_one]
  · intro h
    have hx : (0 : ℝ) = 10 := congrArg Point.x h
    norm_num at hx

/-! ### Claim C2: endpoint handling of `Route.save` -/

/-- C2 (counterexample): saving a route with `waypoints=["MHD","THR"]`,
`departure="THR"`, `arrival="MHD"` leaves the list unchanged — both
endpoints are already present, so nothing is injected and nothing is
reordered; the result does not start with the departure. -/
theorem c2_counterexample_no_reorder :
    (routeSave (fun _ _ => (0 : ℚ)) []
        { name := "R", departure := "THR", arrival := "MHD",
          waypoints := ["MHD", "THR"], coordinates := none,
          total_distance := 0, flight_time := "" }).waypoints = ["MHD", "THR"] ∧
    (routeSave (fun _ _ => (0 : ℚ)) []
        { name := "R", departure := "THR", arrival := "MHD",
          waypoints := ["MHD", "THR"], coordinates := none,
          total_distance := 0, flight_time := "" }).waypoints.head? ≠ some "THR" := by
  constructor
  · rfl
  · decide

/-- C2 (amended): `Route.save` injects the departure at the front and the
arrival at the back only when they are absent; when both are absent from a
non-empty waypoint list (and differ from each other) the saved list starts
with the departure and ends with the arrival.  A list already containing
both endpoints is left in its original order. -/
theorem c2_endpoints_injected_when_absent {α : Type} [LinearOrderedField α]
    [FloorRing α] (dPt : Point α → Point α → α) (table : List (Waypoint α))
    (r : Route α) (hne : r.waypoints ≠ [])
    (hdep : r.departure ∉ r.waypoints) (harr : r.arrival ∉ r.waypoints)
    (hda : r.arrival ≠ r.departure) :
    ((routeSave dPt table r).waypoints.head? = some r.departure ∧
      (routeSave dPt table r).waypoints.getLast? = some r.arrival) ∧
    (∀ r' : Route α, r'.departure ∈ r'.waypoints → r'.arrival ∈ r'.waypoints →
      (routeSave dPt table r').waypoints = r'.waypoints) := by
  constructor
  · have hwp : (routeSave dPt table r).waypoints =
        (r.departure :: r.waypoints) ++ [r.arrival] := by
      simp only [routeSave, injectEndpoints]
      rw [if_neg (by simpa using hne), if_neg hdep,
        if_neg (by simpa using ⟨hda, harr⟩)]
    rw [hwp]
    constructor
    · simp
    · rw [List.getLast?_concat]
  · intro r' hd ha
    simp only [routeSave, injectEndpoints]
    split_ifs with h1 h2 h3 <;> simp_all

/-! ### Claim C4: duplicate segments in `build_graph` -/

/-- Does segment `s` connect the unordered pair `u v`? -/
def segMatches {α : Type} (s : Segment α) (u v : String) : Bool :=
  (s.fromW == u && s.toW == v) || (s.fromW == v && s.toW == u)

theorem find?_congr' {β : Type} {p q : β → Bool} (h : ∀ x, p x = q x) :
    ∀ l : List β, l.find? p = l.find? q
  | [] => rfl
  | x :: xs => by
    rcases hq : q x with _ | _
    · rw [List.find?_cons_of_neg _ (by rw [h x, hq]; exact Bool.false_ne_true),
        List.find?_cons_of_neg _ (by rw [hq]; exact Bool.false_ne_true)]
      exact find?_congr' h xs
    · rw [List.find?_cons_of_pos _ (by rw [h x, hq]), List.find?_cons_of_pos _ hq]

/-- The attribute update of `add_edge` does not change which queries an
edge matches. -/
theorem edgeMatches_update {α : Type} (e : Edge α) (w : α) (aw : String)
    (u v : String) :
    edgeMatches ({ e with weight := w, airway := aw }) u v = edgeMatches e u v := rfl

/-- Two queries naming the same unordered pair match the same edges. -/
theorem edgeMatches_pair_congr {α : Type} {a b u v : String} {w : α} {aw : String}
    (h : edgeMatches (⟨a, b, w, aw⟩ : Edge α) u v = true) (e : Edge α) :
    edgeMatches e u v = edgeMatches e a b := by
  simp only [edgeMatches, Bool.or_eq_true, Bool.and_eq_true, beq_iff_eq] at h
  rcases h with ⟨h1, h2⟩ | ⟨h1, h2⟩
  · subst h1; subst h2; rfl
  · subst h1; subst h2
    simp only [edgeMatches]
    exact Bool.or_comm _ _

/-- An edge matching two different unordered-pair queries forces the two
queries to name the same pair. -/
theorem edgeMatches_both {α : Type} {e : Edge α} {a b u v : String}
    (h1 : edgeMatches e u v = true) (h2 : edgeMatches e a b = true)
    (w : α) (aw : String) : edgeMatches (⟨a, b, w, aw⟩ : Edge α) u v = true := by
  simp only [edgeMatches, Bool.or_eq_true, Bool.and_eq_true, beq_iff_eq] at *
  rcases h1 with ⟨p1, p2⟩ | ⟨p1, p2⟩ <;> rcases h2 with ⟨q1, q2⟩ | ⟨q1, q2⟩ <;>
    subst p1 <;> subst p2 <;> simp_all

theorem findEdge_addEdge_match {α : Type} (g : Graph α) {a b u v : String}
    {w : α} {aw : String}
    (h : edgeMatches (⟨a, b, w, aw⟩ : Edge α) u v = true) :
    (findEdge (addEdge g a b w aw) u v).map (fun e => (e.weight, e.airway)) =
      some (w, aw) := by
  unfold addEdge findEdge
  rcases hf : g.find? (fun e => edgeMatches e a b) with _ | e0
  · simp only [Option.isSome_none, Bool.false_eq_true, if_false, List.find?_append]
    have hg : g.find? (fun e => edgeMatches e u v) = none := by
      rw [find?_congr' (fun e => edgeMatches_pair_congr h e) g, hf]
    rw [hg]
    simp [h]
  · simp only [Option.isSome_some, if_true, List.find?_map]
    have hpf : ∀ e : Edge α,
        ((fun e => edgeMatches e u v) ∘
          (fun e => if edgeMatches e a b then { e with weight := w, airway := aw } else e)) e =
        edgeMatches e u v := by
      intro e
      simp only [Function.comp]
      split
      · rfl
      · rfl
    rw [find?_congr' hpf g, find?_congr' (fun e => edgeMatches_pair_congr h e) g, hf]
    have he0 : edgeMatches e0 a b = true := by
      have hfs := List.find?_some hf
      simpa using hfs
    simp [he0]

theorem findEdge_addEdge_other {α : Type} (g : Graph α) {a b u v : String}
    {w : α} {aw : String}
    (h : edgeMatches (⟨a, b, w, aw⟩ : Edge α) u v = false) :
    findEdge (addEdge g a b w aw) u v = findEdge g u v := by
  unfold addEdge findEdge
  rcases hf : g.find? (fun e => edgeMatches e a b) with _ | e0
  · simp only [Option.isSome_none, Bool.false_eq_true, if_false, List.find?_append]
    have hnew : List.find? (fun e => edgeMatches e u v) [(⟨a, b, w, aw⟩ : Edge α)] = none := by
      simp [h]
    rw [hnew, Option.or_none]
  · simp only [Option.isSome_some, if_true, List.find?_map]
    have hpf : ∀ e : Edge α,
        ((fun e => edgeMatches e u v) ∘
          (fun e => if edgeMatches e a b then { e with weight := w, airway := aw } else e)) e =
        edgeMatches e u v := by
      intro e
      simp only [Function.comp]
      split
      · rfl
      · rfl
    rw [find?_congr' hpf g]
    rcases hq : g.find? (fun e => edgeMatches e u v) with _ | e1
    · rfl
    · have h1 : edgeMatches e1 u v = true := by
        have hfs := List.find?_some hq
        simpa using hfs
      have h2 : edgeMatches e1 a b = false := by
        rcases hb : edgeMatches e1 a b with _ | _
        · rfl
        · exact absurd (edgeMatches_both h1 hb w aw) (by rw [h]; exact Bool.false_ne_true)
      simp [h2]

theorem build_graph_findEdge_aux {α : Type} (segs : List (Segment α))
    (g : Graph α) (u v : String) :
    (findEdge (segs.foldl (fun g s => addEdge g s.fromW s.toW s.distance s.airway) g) u v).map
        (fun e => (e.weight, e.airway)) =
      match (segs.filter (fun s => segMatches s u v)).getLast? with
      | some s => some (s.distance, s.airway)
      | none => (findEdge g u v).map (fun e => (e.weight, e.airway)) := by
  induction segs generalizing g with
  | nil => rfl
  | cons s segs ih =>
    rw [List.foldl_cons]
    rcases hm : segMatches s u v with _ | _
    · rw [ih (addEdge g s.fromW s.toW s.distance s.airway)]
      have hfil : (s :: segs).filter (fun s => segMatches s u v) =
          segs.filter (fun s => segMatches s u v) := by
        simp [List.filter_cons, hm]
      rw [hfil]
      rcases hlast : (segs.filter (fun s => segMatches s u v)).getLast? with _ | s'
      · simp only []
        rw [findEdge_addEdge_other g hm]
      · simp only []
    · rw [ih (addEdge g s.fromW s.toW s.distance s.airway)]
      have hfil : (s :: segs).filter (fun s => segMatches s u v) =
          s :: segs.filter (fun s => segMatches s u v) := by
        simp [List.filter_cons, hm]
      rw [hfil]
      rcases hlast : (segs.filter (fun s => segMatches s u v)).getLast? with _ | s'
      · have hnil : segs.filter (fun s => segMatches s u v) = [] :=
          List.getLast?_eq_none_iff.mp hlast
      -- wrong tactic placeholder
        rw [hnil]
        simp only [List.getLast?_singleton]
        rw [findEdge_addEdge_match g hm]
      · have : (s :: segs.filter (fun s => segMatches s u v)).getLast? = some s' := by
          rcases hcons : segs.filter (fun s => segMatches s u v) with _ | ⟨y, ys⟩
          · rw [hcons] at hlast; exact absurd hlast (by simp)
          · rw [hcons] at hlast
            rw [List.getLast?_cons_cons, hlast]
        rw [this]

/-- C4 (amended): when several segments connect the same unordered pair of
waypoints, `build_graph` keeps the weight and airway label of the *last*
segment in table order (each `add_edge` on an existing pair overwrites the
edge attributes); the lowest-weight segment is not preferred. -/
theorem c4_last_segment_wins {α : Type} [LinearOrderedField α]
    (segments : List (Segment α)) (u v : String) :
    (findEdge (build_graph segments) u v).map (fun e => (e.weight, e.airway)) =
      ((segments.filter (fun s => segMatches s u v)).getLast?).map
        (fun s => (s.distance, s.airway)) := by
  unfold build_graph
  rw [build_graph_findEdge_aux segments [] u v]
  rcases h : (segments.filter (fun s => segMatches s u v)).getLast? with _ | s
  · rfl
  · rfl

/-- C4 (counterexample): with two segments `A–B` of weights 50 then 100,
the constructed graph retains weight 100 (the last seen), not the lowest
weight 50 as claimed. -/
theorem c4_counterexample_overwrite :
    (findEdge (build_graph
        ([⟨"A", "B", 50, "AW1"⟩, ⟨"A", "B", 100, "AW2"⟩] : List (Segment ℚ)))
        "A" "B").map Edge.weight = some 100 ∧ (100 : ℚ) ≠ 50 := by
  constructor
  · rfl
  · norm_num

/-- C2 witness: a route with endpoints absent from its one-element waypoint
list; after saving, the list starts with the departure and ends with the
arrival. -/
theorem c2_endpoints_injected_when_absent_witness :
    (routeSave (fun _ _ => (0 : ℚ)) []
        { name := "", departure := "DDD", arrival := "EEE",
          waypoints := ["AAA"], coordinates := none,
          total_distance := 0, flight_time := "" }).waypoints.head? = some "DDD" ∧
    (routeSave (fun _ _ => (0 : ℚ)) []
        { name := "", departure := "DDD", arrival := "EEE",
          waypoints := ["AAA"], coordinates := none,
          total_distance := 0, flight_time := "" }).waypoints.getLast? = some "EEE" :=
  (c2_endpoints_injected_when_absent (fun _ _ => (0 : ℚ)) []
    { name := "", departure := "DDD", arrival := "EEE",
      waypoints := ["AAA"], coordinates := none,
      total_distance := 0, flight_time := "" }
    (by decide) (by decide) (by decide) (by decide)).1

/-! ### Claim C5: airport code validation and resolution -/

/-- C5: inputs whose trimmed upper-cased form is not 3 or 4 alphabetic
letters fail validation; a 4-letter alphabetic code resolves through the
ICAO-or-IATA directory lookup to the canonical ICAO code, falling back to
the (normalized) input; a 3-letter alphabetic code resolves by IATA,
returning the matched canonical code when present and defaulting to the
original code when the directory has no match. -/
theorem c5_code_resolution (directory : List Airport) (code : String) :
    (¬ ((strLen (normCode code) = 3 ∨ strLen (normCode code) = 4) ∧
        allAlpha (normCode code) = true) →
      (validate_airport_code directory code).valid = false) ∧
    (code ≠ "" → strLen (normCode code) = 4 →
      allAlpha (normCode code) = true →
      get_icao_code directory code =
        some (((findAirportEither directory (normCode code)).map
          Airport.icao_code).getD (normCode code))) ∧
    (code ≠ "" → strLen (normCode code) = 3 →
      allAlpha (normCode code) = true →
      findAirportIata directory (normCode code) = none →
      get_icao_code directory code = some (normCode code)) ∧
    (code ≠ "" → strLen (normCode code) = 3 →
      allAlpha (normCode code) = true →
      ∀ a : Airport, findAirportIata directory (normCode code) = some a →
        a.icao_code ≠ "" → get_icao_code directory code = some a.icao_code) := by
  refine ⟨?_, ?_, ?_, ?_⟩
  · intro hshape
    unfold validate_airport_code
    split_ifs with h1 h2 h3 <;> first | rfl | exact absurd ⟨h2, h3⟩ hshape
  · intro hne h4 halpha
    unfold get_icao_code
    rw [if_neg hne, if_pos ⟨h4, halpha⟩]
    rcases hfind : findAirportEither directory (normCode code) with _ | a
    · rfl
    · rfl
  · intro hne h3 halpha hnone
    unfold get_icao_code
    rw [if_neg hne, if_neg (by rw [h3]; rintro ⟨h, -⟩; exact absurd h (by norm_num)),
      if_pos ⟨h3, halpha⟩, hnone]
    rfl
  · intro hne h3 halpha a hfind hicao
    unfold get_icao_code
    rw [if_neg hne, if_neg (by rw [h3]; rintro ⟨h, -⟩; exact absurd h (by norm_num)),
      if_pos ⟨h3, halpha⟩, hfind]
    simp only [if_pos hicao]

/-- C5 witness: concrete resolutions against a directory mapping IATA
`THR` to ICAO `OIII`: a non-alphabetic input fails validation, a known
3-letter code resolves, an unknown 3-letter code is returned unchanged,
and a 4-letter code resolves through the directory. -/
theorem c5_code_resolution_witness :
    (validate_airport_code [⟨"OIII", "THR"⟩] "TH1").valid = false ∧
    get_icao_code [⟨"OIII", "THR"⟩] "thr" = some "OIII" ∧
    get_icao_code [⟨"OIII", "THR"⟩] "xyz" = some "XYZ" ∧
    get_icao_code [⟨"OIII", "THR"⟩] "oiii" = some "OIII" := by
  refine ⟨(c5_code_resolution [⟨"OIII", "THR"⟩] "TH1").1 (by decide), ?_, ?_, ?_⟩
  · exact (c5_code_resolution [⟨"OIII", "THR"⟩] "thr").2.2.2 (by decide) (by decide)
      (by decide) ⟨"OIII", "THR"⟩ (by decide) (by decide)
  · exact (c5_code_resolution [⟨"OIII", "THR"⟩] "xyz").2.2.1 (by decide) (by decide)
      (by decide) (by decide)
  · exact ((c5_code_resolution [⟨"OIII", "THR"⟩] "oiii").2.1 (by decide) (by decide)
      (by decide)).trans (by decide)

/-! ### Claim C3: `find_route` -/

theorem mem_nodesList_left {α : Type} {g : Graph α} {e : Edge α} (he : e ∈ g) :
    e.a ∈ nodesList g :=
  List.mem_flatMap.mpr ⟨e, he, by simp⟩

theorem mem_nodesList_right {α : Type} {g : Graph α} {e : Edge α} (he : e ∈ g) :
    e.b ∈ nodesList g :=
  List.mem_flatMap.mpr ⟨e, he, by simp⟩

theorem adjRel_mem_nodes {α : Type} {g : Graph α} {u v : String}
    (h : adjRel g u v) : u ∈ nodesList g ∧ v ∈ nodesList g := by
  unfold adjRel adjB findEdge at h
  rcases hf : g.find? (fun e => edgeMatches e u v) with _ | e
  · rw [hf] at h
    simp at h
  · have he : e ∈ g := List.mem_of_find?_eq_some hf
    have hm : edgeMatches e u v = true := by
      have := List.find?_some hf
      simpa using this
    simp only [edgeMatches, Bool.or_eq_true, Bool.and_eq_true, beq_iff_eq] at hm
    rcases hm with ⟨h1, h2⟩ | ⟨h1, h2⟩
    · exact h1 ▸ h2 ▸ ⟨mem_nodesList_left he, mem_nodesList_right he⟩
    · exact h1 ▸ h2 ▸ ⟨mem_nodesList_right he, mem_nodesList_left he⟩

theorem chain_mem_nodes {α : Type} {g : Graph α} :
    ∀ {s : String} {m : List String}, List.Chain (adjRel g) s m →
      ∀ x ∈ m, x ∈ nodesList g := by
  intro s m hc
  induction hc with
  | nil => intro x hx; cases hx
  | cons hR _ ih =>
    intro x hx
    rcases List.mem_cons.mp hx with rfl | hx'
    · exact (adjRel_mem_nodes hR).2
    · exact ih x hx'

/-- Loop erasure: any relational chain from `s` to `t` contains a
duplicate-free chain from `s` to `t` using only its own nodes. -/
theorem chain_nodup {R : String → String → Prop} :
    ∀ (n : ℕ) (l : List String), l.length ≤ n → ∀ (s t : String),
      List.Chain R s l → (s :: l).getLast? = some t →
      ∃ m, List.Chain R s m ∧ (s :: m).getLast? = some t ∧
        (s :: m).Nodup ∧ ∀ x ∈ m, x ∈ l := by
  intro n
  induction n with
  | zero =>
    intro l hl s t hc hlast
    have hnil : l = [] := List.length_eq_zero.mp (Nat.le_zero.mp hl)
    subst hnil
    exact ⟨[], List.Chain.nil, hlast, by simp, by simp⟩
  | succ n ih =>
    intro l hl s t hc hlast
    by_cases hs : s ∈ l
    · obtain ⟨l1, l2, rfl⟩ := List.append_of_mem hs
      have hc2 : List.Chain R s l2 := (List.chain_split.mp hc).2
      have hlast2 : (s :: l2).getLast? = some t := by
        rw [show s :: (l1 ++ s :: l2) = (s :: l1) ++ s :: l2 from rfl,
          List.getLast?_append] at hlast
        rcases h2 : (s :: l2).getLast? with _ | z
        · exact absurd h2 (by simp)
        · rw [h2] at hlast
          simpa using hlast
      have hlen : l2.length ≤ n := by
        rw [List.length_append, List.length_cons] at hl
        omega
      obtain ⟨m, h1, h2, h3, h4⟩ := ih l2 hlen s t hc2 hlast2
      refine ⟨m, h1, h2, h3, fun x hx => ?_⟩
      rw [List.mem_append, List.mem_cons]
      exact Or.inr (Or.inr (h4 x hx))
    · cases l with
      | nil => exact ⟨[], List.Chain.nil, hlast, by simp, by simp⟩
      | cons b l' =>
        have hcb := List.chain_cons.mp hc
        have hlastb : (b :: l').getLast? = some t := by
          rwa [List.getLast?_cons_cons] at hlast
        have hlen : l'.length ≤ n := by
          rw [List.length_cons] at hl
          omega
        obtain ⟨m, h1, h2, h3, h4⟩ := ih l' hlen b t hcb.2 hlastb
        refine ⟨b :: m, List.chain_cons.mpr ⟨hcb.1, h1⟩, ?_, ?_, ?_⟩
        · rwa [List.getLast?_cons_cons]
        · rw [List.nodup_cons]
          refine ⟨?_, h3⟩
          intro hmem
          rcases List.mem_cons.mp hmem with heq | hsm
          · exact hs (heq ▸ List.mem_cons_self _ _)
          · exact hs (List.mem_cons.mpr (Or.inr (h4 s hsm)))
        · intro x hx
          rcases List.mem_cons.mp hx with rfl | hxm
          · exact List.mem_cons_self _ _
          · exact List.mem_cons.mpr (Or.inr (h4 x hxm))

/-- Every enumerated path starts at `cur`, ends at `t` and walks along
graph edges. -/
theorem pathsFrom_sound {α : Type} (g : Graph α) (t : String) :
    ∀ (fuel : ℕ) (cur : String) (avail : List String) (p : List String),
      p ∈ pathsFrom g t fuel cur avail →
      ∃ q, p = cur :: q ∧ List.Chain (adjRel g) cur q ∧ p.getLast? = some t := by
  intro fuel
  induction fuel with
  | zero =>
    intro cur avail p hp
    unfold pathsFrom at hp
    split_ifs at hp with h
    · rcases List.mem_singleton.mp hp with rfl
      exact ⟨[], rfl, List.Chain.nil, by simp [h]⟩
    · cases hp
  | succ fuel ih =>
    intro cur avail p hp
    unfold pathsFrom at hp
    split_ifs at hp with h
    · rcases List.mem_singleton.mp hp with rfl
      exact ⟨[], rfl, List.Chain.nil, by simp [h]⟩
    · rcases List.mem_flatMap.mp hp with ⟨n, hn, hpn⟩
      rcases List.mem_map.mp hpn with ⟨q0, hq0, rfl⟩
      obtain ⟨q1, rfl, hchain, hlast⟩ := ih n (avail.erase n) q0 hq0
      have hadj : adjRel g cur n := (List.mem_filter.mp hn).2
      refine ⟨n :: q1, rfl, List.chain_cons.mpr ⟨hadj, hchain⟩, ?_⟩
      rw [List.getLast?_cons_cons]
      exact hlast

/-- Completeness of the enumeration: a duplicate-free chain from `cur` to
`t` through `avail` guarantees a non-empty path list. -/
theorem pathsFrom_complete {α : Type} (g : Graph α) (t : String) :
    ∀ (fuel : ℕ) (avail : List String) (cur : String) (p : List String),
      avail.length ≤ fuel →
      List.Chain (adjRel g) cur p → (cur :: p).getLast? = some t →
      (cur :: p).Nodup → (∀ x ∈ p, x ∈ avail) →
      pathsFrom g t fuel cur avail ≠ [] := by
  intro fuel
  induction fuel with
  | zero =>
    intro avail cur p hlen hc hlast hnd hsub
    have hav : avail = [] := List.length_eq_zero.mp (Nat.le_zero.mp hlen)
    subst hav
    have hp : p = [] := by
      cases p with
      | nil => rfl
      | cons b p' => exact absurd (hsub b (by simp)) (by simp)
    subst hp
    have hct : cur = t := by simpa using hlast
    unfold pathsFrom
    rw [if_pos hct]
    simp
  | succ fuel ih =>
    intro avail cur p hlen hc hlast hnd hsub
    by_cases hct : cur = t
    · unfold pathsFrom
      rw [if_pos hct]
      simp
    · cases p with
      | nil => exact absurd (by simpa using hlast) hct
      | cons b p' =>
        have hcb := List.chain_cons.mp hc
        have hbav : b ∈ avail := hsub b (by simp)
        have hlen' : (avail.erase b).length ≤ fuel := by
          rw [List.length_erase_of_mem hbav]
          omega
        have hnd' : (b :: p').Nodup := (List.nodup_cons.mp hnd).2
        have hsub' : ∀ x ∈ p', x ∈ avail.erase b := by
          intro x hx
          have hxb : x ≠ b := by
            intro hx2
            subst hx2
            exact (List.nodup_cons.mp hnd').1 hx
          exact (List.mem_erase_of_ne hxb).mpr (hsub x (by simp [hx]))
        have hlast' : (b :: p').getLast? = some t := by
          rwa [List.getLast?_cons_cons] at hlast
        have hrec := ih (avail.erase b) b p' hlen' hcb.2 hlast' hnd' hsub'
        obtain ⟨q, hq⟩ := List.exists_mem_of_ne_nil _ hrec
        unfold pathsFrom
        rw [if_neg hct]
        apply List.ne_nil_of_mem (a := cur :: q)
        apply List.mem_flatMap.mpr
        exact ⟨b, List.mem_filter.mpr ⟨hbav, hcb.1⟩, List.mem_map.mpr ⟨q, hq, rfl⟩⟩

theorem foldl_min_choice {α : Type} [LinearOrderedField α]
    (w : List String → α) :
    ∀ (ps : List (List String)) (best : List String),
      ps.foldl (fun best q => if w q < w best then q else best) best = best ∨
        ps.foldl (fun best q => if w q < w best then q else best) best ∈ ps := by
  intro ps
  induction ps with
  | nil => intro best; exact Or.inl rfl
  | cons q ps ih =>
    intro best
    rw [List.foldl_cons]
    by_cases h : w q < w best
    · rw [if_pos h]
      rcases ih q with h1 | h1
      · rw [h1]
        exact Or.inr (List.mem_cons_self _ _)
      · exact Or.inr (List.mem_cons.mpr (Or.inr h1))
    · rw [if_neg h]
      rcases ih best with h1 | h1
      · exact Or.inl h1
      · exact Or.inr (List.mem_cons.mpr (Or.inr h1))

theorem minBy_mem {α : Type} [LinearOrderedField α] (w : List String → α) :
    ∀ (l : List (List String)) (p : List String), minBy w l = some p → p ∈ l := by
  intro l p h
  cases l with
  | nil => cases h
  | cons p0 ps =>
    unfold minBy at h
    have hp : ps.foldl (fun best q => if w q < w best then q else best) p0 = p :=
      Option.some_injective _ h
    rcases foldl_min_choice w ps p0 with h1 | h1
    · rw [hp] at h1
      exact List.mem_cons.mpr (Or.inl h1)
    · rw [hp] at h1
      exact List.mem_cons.mpr (Or.inr h1)

theorem minBy_eq_none_iff {α : Type} [LinearOrderedField α]
    (w : List String → α) (l : List (List String)) :
    minBy w l = none ↔ l = [] := by
  cases l with
  | nil => simp [minBy]
  | cons p ps => simp [minBy]

theorem specDedup_cons (x : String) (xs : List String) :
    specDedup (x :: xs) = x :: specDedup (xs.filter (fun y => y ≠ x)) := by
  rw [specDedup]

theorem specDedup_mem : ∀ (l : List String) (a : String),
    a ∈ specDedup l ↔ a ∈ l
  | [], a => by simp [specDedup]
  | x :: xs, a => by
    rw [specDedup_cons, List.mem_cons, List.mem_cons]
    constructor
    · rintro (rfl | h)
      · exact Or.inl rfl
      · have := (specDedup_mem (xs.filter (fun y => y ≠ x)) a).mp h
        exact Or.inr (List.mem_of_mem_filter this)
    · rintro (rfl | h)
      · exact Or.inl rfl
      · by_cases hax : a = x
        · exact Or.inl hax
        · refine Or.inr ((specDedup_mem (xs.filter (fun y => y ≠ x)) a).mpr ?_)
          exact List.mem_filter.mpr ⟨h, by simpa using hax⟩
termination_by l _ => l.length
decreasing_by
  all_goals
    simp only [List.length_cons]
    exact Nat.lt_succ_of_le (List.length_filter_le _ _)

theorem specDedup_nodup : ∀ l : List String, (specDedup l).Nodup
  | [] => by simp [specDedup]
  | x :: xs => by
    rw [specDedup_cons, List.nodup_cons]
    refine ⟨?_, specDedup_nodup (xs.filter (fun y => y ≠ x))⟩
    intro hmem
    have h1 := (specDedup_mem _ x).mp hmem
    have h2 := (List.mem_filter.mp h1).2
    simp at h2
termination_by l => l.length
decreasing_by
  simp only [List.length_cons]
  exact Nat.lt_succ_of_le (List.length_filter_le _ _)

theorem dedupFirst_go (xs : List String) : ∀ acc : List String,
    List.foldl (fun acc x => if x ∈ acc then acc else acc ++ [x]) acc xs =
      acc ++ specDedup (xs.filter (fun x => decide (x ∉ acc))) := by
  induction xs with
  | nil => intro acc; simp [specDedup]
  | cons x xs ih =>
    intro acc
    rw [List.foldl_cons]
    by_cases hx : x ∈ acc
    · rw [if_pos hx, ih acc, List.filter_cons]
      simp [hx]
    · rw [if_neg hx, ih (acc ++ [x]), List.filter_cons]
      have hd : decide (x ∉ acc) = true := by simpa using hx
      rw [hd]
      simp only [if_true]
      rw [specDedup_cons, List.append_assoc, List.singleton_append]
      have hff : xs.filter (fun y => decide (y ∉ acc ++ [x])) =
          (xs.filter (fun y => decide (y ∉ acc))).filter (fun y => y ≠ x) := by
        rw [List.filter_filter]
        apply List.filter_congr
        intro y _
        rcases Decidable.em (y ∈ acc) with hy | hy
        · simp [hy, List.mem_append]
        · simp [hy, List.mem_append]
      rw [hff]

theorem dedupFirst_eq_specDedup (l : List String) :
    dedupFirst l = specDedup l := by
  unfold dedupFirst
  rw [dedupFirst_go l []]
  simp

/-- The non-empty path enumeration used by `find_route` is non-empty
exactly when the endpoints are connected. -/
theorem pathsFrom_empty_iff {α : Type} (g : Graph α) (s t : String) :
    pathsFrom g t ((nodesList g).dedup.filter (fun n => n ≠ s)).length s
        ((nodesList g).dedup.filter (fun n => n ≠ s)) = [] ↔
      ¬ gConnected g s t := by
  constructor
  · intro hempty hconn
    obtain ⟨l, hchain, hlastEq⟩ := List.exists_chain_of_relationReflTransGen hconn
    have hlast? : (s :: l).getLast? = some t := by
      rw [List.getLast?_eq_getLast (s :: l) (List.cons_ne_nil _ _), hlastEq]
    obtain ⟨m, h1, h2, h3, _⟩ := chain_nodup l.length l le_rfl s t hchain hlast?
    refine pathsFrom_complete g t _ _ s m le_rfl h1 h2 h3 ?_ hempty
    intro x hx
    refine List.mem_filter.mpr ⟨List.mem_dedup.mpr (chain_mem_nodes h1 x hx), ?_⟩
    have hxs : x ≠ s := by
      intro he
      subst he
      exact (List.nodup_cons.mp h3).1 hx
    simpa using hxs
  · intro hnc
    by_contra hne
    obtain ⟨p, hp⟩ := List.exists_mem_of_ne_nil _ hne
    obtain ⟨q, rfl, hchain, hlast⟩ := pathsFrom_sound g t _ s _ p hp
    apply hnc
    have hlastq : (s :: q).getLast (List.cons_ne_nil _ _) = t := by
      have := List.getLast?_eq_getLast (s :: q) (List.cons_ne_nil _ _)
      rw [this] at hlast
      exact Option.some_injective _ hlast
    exact List.relationReflTransGen_of_exists_chain q hchain hlastq

/-- C3: `find_route` returns `None` exactly when an endpoint is missing
from the graph or no connecting path exists; any returned result carries
the summed edge weights of its own path, the first-occurrence
de-duplicated airway list of the traversed edges, and endpoints in place;
and on the concrete two-edge graph `A–B` (100) `B–C` (50) the route
`[A, B, C]` with distance 150 and both airways is returned. -/
theorem c3_find_route_spec :
    (∀ (α : Type) [LinearOrderedField α] (g : Graph α) (s t : String),
      find_route g s t = none ↔
        s ∉ nodesList g ∨ t ∉ nodesList g ∨ ¬ gConnected g s t) ∧
    (∀ (α : Type) [LinearOrderedField α] (g : Graph α) (s t : String)
      (r : RouteResult α), find_route g s t = some r →
        r.total_distance = pathWeight g r.waypoints ∧
        r.airways_used = specDedup (pathAirways g r.waypoints) ∧
        r.airways_used.Nodup ∧
        (∀ a, a ∈ r.airways_used ↔ a ∈ pathAirways g r.waypoints) ∧
        r.waypoints.head? = some s ∧ r.waypoints.getLast? = some t) ∧
    (find_route (build_graph
        ([⟨"AAA", "BBB", 100, "AW1"⟩, ⟨"BBB", "CCC", 50, "AW2"⟩] : List (Segment ℚ)))
        "AAA" "CCC" =
      some { waypoints := ["AAA", "BBB", "CCC"], total_distance := 150,
             airways_used := ["AW1", "AW2"], segment_count := 2 }) := by
  refine ⟨?_, ?_, ?_⟩
  · intro α _ g s t
    unfold find_route
    by_cases hm : s ∈ nodesList g ∧ t ∈ nodesList g
    · rw [if_pos hm]
      rcases hmin : minBy (pathWeight g)
          (pathsFrom g t ((nodesList g).dedup.filter (fun n => n ≠ s)).length s
            ((nodesList g).dedup.filter (fun n => n ≠ s))) with _ | p
      · have hempty := (minBy_eq_none_iff (pathWeight g) _).mp hmin
        have hnc := (pathsFrom_empty_iff g s t).mp hempty
        constructor
        · intro _
          exact Or.inr (Or.inr hnc)
        · intro _
          rfl
      · have hpmem := minBy_mem (pathWeight g) _ p hmin
        obtain ⟨q, rfl, hchain, hlast⟩ := pathsFrom_sound g t _ s _ _ hpmem
        have hconn : gConnected g s t := by
          have hlastq : (s :: q).getLast (List.cons_ne_nil _ _) = t := by
            have hgl := List.getLast?_eq_getLast (s :: q) (List.cons_ne_nil _ _)
            rw [hgl] at hlast
            exact Option.some_injective _ hlast
          exact List.relationReflTransGen_of_exists_chain q hchain hlastq
        constructor
        · intro hcontra
          exact Option.noConfusion hcontra
        · rintro (h | h | h)
          · exact absurd hm.1 h
          · exact absurd hm.2 h
          · exact absurd hconn h
    · rw [if_neg hm]
      rcases Decidable.not_and_iff_or_not.mp hm with h | h
      · exact ⟨fun _ => Or.inl h, fun _ => rfl⟩
      · exact ⟨fun _ => Or.inr (Or.inl h), fun _ => rfl⟩
  · intro α _ g s t r hr
    unfold find_route at hr
    split_ifs at hr with hm
    · rcases hmin : minBy (pathWeight g)
          (pathsFrom g t ((nodesList g).dedup.filter (fun n => n ≠ s)).length s
            ((nodesList g).dedup.filter (fun n => n ≠ s))) with _ | p
      · rw [hmin] at hr
        cases hr
      · rw [hmin] at hr
        have hpmem := minBy_mem (pathWeight g) _ p hmin
        obtain ⟨q, hpq, hchain, hlast⟩ := pathsFrom_sound g t _ s _ _ hpmem
        have hrv := Option.some_injective _ hr
        rw [← hrv]
        refine ⟨rfl, dedupFirst_eq_specDedup _, ?_, ?_, ?_, ?_⟩
        · rw [dedupFirst_eq_specDedup]
          exact specDedup_nodup _
        · intro a
          rw [dedupFirst_eq_specDedup]
          exact specDedup_mem _ a
        · rw [hpq]
          rfl
        · exact hlast
  · simp [find_route, build_graph, addEdge, findEdge, edgeMatches, nodesList,
      pathsFrom, pathWeight, pathAirways, dedupFirst, minBy, adjB, List.foldl,
      List.find?, List.flatMap, List.dedup, List.filter, List.map, List.erase,
      List.pwFilter]
    norm_num

/-- C3 witness: the soundness clause applied to the concrete two-edge
graph result. -/
theorem c3_find_route_spec_witness :
    ({ waypoints := ["AAA", "BBB", "CCC"], total_distance := 150,
       airways_used := ["AW1", "AW2"], segment_count := 2 } :
        RouteResult ℚ).total_distance =
      pathWeight (build_graph
        ([⟨"AAA", "BBB", 100, "AW1"⟩, ⟨"BBB", "CCC", 50, "AW2"⟩] : List (Segment ℚ)))
        ["AAA", "BBB", "CCC"] ∧
    (["AW1", "AW2"] : List String) = specDedup (pathAirways (build_graph
        ([⟨"AAA", "BBB", 100, "AW1"⟩, ⟨"BBB", "CCC", 50, "AW2"⟩] : List (Segment ℚ)))
        ["AAA", "BBB", "CCC"]) := by
  have h := (c3_find_route_spec.2.1 ℚ (build_graph
      ([⟨"AAA", "BBB", 100, "AW1"⟩, ⟨"BBB", "CCC", 50, "AW2"⟩] : List (Segment ℚ)))
      "AAA" "CCC"
      { waypoints := ["AAA", "BBB", "CCC"], total_distance := 150,
        airways_used := ["AW1", "AW2"], segment_count := 2 } c3_find_route_spec.2.2)
  exact ⟨h.1, h.2.1⟩

/-! ### Claim C9: `find_nearby_waypoints` -/

/-- C9: every entry returned by `find_nearby_waypoints` is an active table
waypoint whose scaled distance to the planar segment is within the maximum
deviation, carrying the rounded line/start distances, and the result is
sorted ascending by the (line-distance, distance-from-start) key. -/
theorem c9_find_nearby_spec (α : Type) [LinearOrderedField α] [FloorRing α]
    (dPt : Point α → Point α → α) (dLine : Point α → Point α → Point α → α)
    (table : List (Waypoint α)) (p1 p2 : Point α) (maxNm : α) :
    (∀ e ∈ find_nearby_waypoints dPt dLine table p1 p2 maxNm,
      e.wp ∈ table ∧ e.wp.is_active = true ∧
      dLine e.wp.location p1 p2 * (6011 / 100) ≤ maxNm ∧
      e.distance_to_line_nm = pyRound (dLine e.wp.location p1 p2 * (6011 / 100)) 1 ∧
      e.distance_to_start_nm = pyRound (dPt e.wp.location p1 * (6011 / 100)) 1) ∧
    (find_nearby_waypoints dPt dLine table p1 p2 maxNm).Sorted keyLE := by
  constructor
  · intro e he
    unfold find_nearby_waypoints at he
    rw [List.mem_insertionSort] at he
    obtain ⟨w, hw, hfw⟩ := List.mem_filterMap.mp he
    have hwt := List.mem_filter.mp hw
    split_ifs at hfw with hcond
    · have hew := Option.some_injective _ hfw
      rw [← hew]
      exact ⟨hwt.1, hwt.2, hcond, rfl, rfl⟩
  · exact List.sorted_insertionSort keyLE _

/-- C9 witness: a one-waypoint table with constant-zero geometry oracles;
the single returned entry satisfies all clauses and the result is sorted. -/
theorem c9_find_nearby_spec_witness :
    ((⟨⟨"FIX", "F", ⟨0, 0⟩, true⟩, 0, 0⟩ : NearbyEntry ℚ).wp ∈
        ([⟨"FIX", "F", ⟨0, 0⟩, true⟩] : List (Waypoint ℚ)) ∧
      (⟨⟨"FIX", "F", ⟨0, 0⟩, true⟩, 0, 0⟩ : NearbyEntry ℚ).wp.is_active = true ∧
      (0 : ℚ) * (6011 / 100) ≤ 50 ∧
      ((⟨⟨"FIX", "F", ⟨0, 0⟩, true⟩, 0, 0⟩ : NearbyEntry ℚ).distance_to_line_nm =
        pyRound ((0 : ℚ) * (6011 / 100)) 1) ∧
      ((⟨⟨"FIX", "F", ⟨0, 0⟩, true⟩, 0, 0⟩ : NearbyEntry ℚ).distance_to_start_nm =
        pyRound ((0 : ℚ) * (6011 / 100)) 1)) ∧
    (find_nearby_waypoints (fun _ _ => (0 : ℚ)) (fun _ _ _ => 0)
      [⟨"FIX", "F", ⟨0, 0⟩, true⟩] ⟨0, 0⟩ ⟨1, 1⟩ 50).Sorted keyLE := by
  have hmem : (⟨⟨"FIX", "F", ⟨0, 0⟩, true⟩, 0, 0⟩ : NearbyEntry ℚ) ∈
      find_nearby_waypoints (fun _ _ => (0 : ℚ)) (fun _ _ _ => 0)
        [⟨"FIX", "F", ⟨0, 0⟩, true⟩] ⟨0, 0⟩ ⟨1, 1⟩ 50 := by
    norm_num [find_nearby_waypoints, List.filter, List.filterMap,
      List.insertionSort, List.orderedInsert, pyRound, pyRoundInt]
  refine ⟨?_, (c9_find_nearby_spec ℚ (fun _ _ => 0) (fun _ _ _ => 0)
    [⟨"FIX", "F", ⟨0, 0⟩, true⟩] ⟨0, 0⟩ ⟨1, 1⟩ 50).2⟩
  exact (c9_find_nearby_spec ℚ (fun _ _ => 0) (fun _ _ _ => 0)
    [⟨"FIX", "F", ⟨0, 0⟩, true⟩] ⟨0, 0⟩ ⟨1, 1⟩ 50).1
    ⟨⟨"FIX", "F", ⟨0, 0⟩, true⟩, 0, 0⟩ hmem

/-! ### Claim C6: `suggest_routes` -/

theorem viaSuggestion_stype {α : Type} [LinearOrderedField α] [FloorRing α]
    {dPt : Point α → Point α → α} {table : List (Waypoint α)}
    {d a : String} {dd : α} {nb : List (NearbyEntry α)} {s : Suggestion α}
    (h : viaSuggestion dPt table d a dd nb = some s) :
    s.stype = "VIA_WAYPOINTS" := by
  unfold viaSuggestion at h
  split_ifs at h
  rw [← Option.some_injective _ h]

theorem hybridSuggestion_stype {α : Type} [LinearOrderedField α] [FloorRing α]
    {dPt : Point α → Point α → α} {table : List (Waypoint α)}
    {d a : String} {dd : α} {nb : List (NearbyEntry α)} {s : Suggestion α}
    (h : hybridSuggestion dPt table d a dd nb = some s) :
    s.stype = "HYBRID" := by
  unfold hybridSuggestion at h
  split_ifs at h
  rcases hm : closestToMid nb (dd / 2) with _ | pr
  · rw [hm] at h
    exact Option.noConfusion h
  · rw [hm] at h
    rw [← Option.some_injective _ h]

theorem directSuggestion_stype {α : Type} [LinearOrderedField α] [FloorRing α]
    (d a : String) (dd : α) : (directSuggestion d a dd).stype = "DIRECT" := rfl

theorem airwaySuggestion_stype {α : Type} [LinearOrderedField α] [FloorRing α]
    {g : Graph α} {d a : String} {s : Suggestion α}
    (h : airwaySuggestion g d a = some s) : s.stype = "AIRWAY_NETWORK" := by
  unfold airwaySuggestion at h
  rcases hr : find_route g d a with _ | rr
  · rw [hr] at h
    exact Option.noConfusion h
  · rw [hr] at h
    rw [← Option.some_injective _ h]

/-- C6: once both endpoint identifiers resolve to waypoint rows,
`suggest_routes` succeeds with between 1 and 4 suggestions, always
including the `DIRECT` one; when the airway network yields no route only
the `AIRWAY_NETWORK` suggestion is missing — the non-network suggestions
are exactly the direct/via/hybrid ones computed from the corridor alone. -/
theorem c6_suggest_routes_spec (α : Type) [LinearOrderedField α] [FloorRing α]
    (dPt : Point α → Point α → α) (dLine : Point α → Point α → Point α → α)
    (table : List (Waypoint α)) (segments : List (Segment α))
    (dep arr : String) (maxdev : α) (dwp awp : Waypoint α)
    (hdep : lookupWp table dep = some dwp) (harr : lookupWp table arr = some awp) :
    ∃ r, suggest_routes dPt dLine table segments dep arr maxdev = some r ∧
      1 ≤ r.suggestions.length ∧ r.suggestions.length ≤ 4 ∧
      "DIRECT" ∈ r.suggestions.map Suggestion.stype ∧
      (find_route (build_graph segments) dep arr = none →
        "AIRWAY_NETWORK" ∉ r.suggestions.map Suggestion.stype) ∧
      r.suggestions.filter (fun s => s.stype != "AIRWAY_NETWORK") =
        directSuggestion dep arr (dPt dwp.location awp.location * (6011 / 100)) ::
          ((viaSuggestion dPt table dep arr
              (dPt dwp.location awp.location * (6011 / 100))
              (find_nearby_waypoints dPt dLine table
                dwp.location awp.location maxdev)).toList ++
           (hybridSuggestion dPt table dep arr
              (dPt dwp.location awp.location * (6011 / 100))
              (find_nearby_waypoints dPt dLine table
                dwp.location awp.location maxdev)).toList) := by
  unfold suggest_routes
  rw [hdep, harr]
  refine ⟨_, rfl, ?_, ?_, ?_, ?_, ?_⟩
  · simp
  · rcases haw : airwaySuggestion (build_graph segments) dep arr with _ | s1 <;>
      rcases hv : viaSuggestion dPt table dep arr
        (dPt dwp.location awp.location * (6011 / 100))
        (find_nearby_waypoints dPt dLine table dwp.location awp.location maxdev)
        with _ | s2 <;>
      rcases hh : hybridSuggestion dPt table dep arr
        (dPt dwp.location awp.location * (6011 / 100))
        (find_nearby_waypoints dPt dLine table dwp.location awp.location maxdev)
        with _ | s3 <;>
      simp
  · simp [directSuggestion]
  · intro hnone hcontra
    have haw : airwaySuggestion (build_graph segments) dep arr = none := by
      unfold airwaySuggestion
      rw [hnone]
      rfl
    rw [haw] at hcontra
    obtain ⟨s, hs, hstype⟩ := List.mem_map.mp hcontra
    rcases List.mem_cons.mp hs with rfl | hs2
    · rw [directSuggestion_stype] at hstype
      exact absurd hstype (by decide)
    · simp only [Option.toList_none, List.nil_append, List.mem_append] at hs2
      rcases hs2 with hs3 | hs3
      · rcases hvo : viaSuggestion dPt table dep arr
            (dPt dwp.location awp.location * (6011 / 100))
            (find_nearby_waypoints dPt dLine table dwp.location awp.location maxdev)
            with _ | s2
        · rw [hvo] at hs3
          cases hs3
        · rw [hvo] at hs3
          rcases List.mem_singleton.mp hs3 with rfl
          rw [viaSuggestion_stype hvo] at hstype
          exact absurd hstype (by decide)
      · rcases hho : hybridSuggestion dPt table dep arr
            (dPt dwp.location awp.location * (6011 / 100))
            (find_nearby_waypoints dPt dLine table dwp.location awp.location maxdev)
            with _ | s3
        · rw [hho] at hs3
          cases hs3
        · rw [hho] at hs3
          rcases List.mem_singleton.mp hs3 with rfl
          rw [hybridSuggestion_stype hho] at hstype
          exact absurd hstype (by decide)
  · have hfa : (airwaySuggestion (build_graph segments) dep arr).toList.filter
        (fun s => s.stype != "AIRWAY_NETWORK") = [] := by
      rcases haw : airwaySuggestion (build_graph segments) dep arr with _ | s1
      · rfl
      · simp [List.filter_cons, airwaySuggestion_stype haw]
    have hfv : (viaSuggestion dPt table dep arr
        (dPt dwp.location awp.location * (6011 / 100))
        (find_nearby_waypoints dPt dLine table dwp.location awp.location maxdev)).toList.filter
        (fun s => s.stype != "AIRWAY_NETWORK") =
        (viaSuggestion dPt table dep arr
          (dPt dwp.location awp.location * (6011 / 100))
          (find_nearby_waypoints dPt dLine table dwp.location awp.location maxdev)).toList := by
      rcases hvo : viaSuggestion dPt table dep arr
          (dPt dwp.location awp.location * (6011 / 100))
          (find_nearby_waypoints dPt dLine table dwp.location awp.location maxdev)
          with _ | s2
      · rfl
      · simp [List.filter_cons, viaSuggestion_stype hvo]
    have hfh : (hybridSuggestion dPt table dep arr
        (dPt dwp.location awp.location * (6011 / 100))
        (find_nearby_waypoints dPt dLine table dwp.location awp.location maxdev)).toList.filter
        (fun s => s.stype != "AIRWAY_NETWORK") =
        (hybridSuggestion dPt table dep arr
          (dPt dwp.location awp.location * (6011 / 100))
          (find_nearby_waypoints dPt dLine table dwp.location awp.location maxdev)).toList := by
      rcases hho : hybridSuggestion dPt table dep arr
          (dPt dwp.location awp.location * (6011 / 100))
          (find_nearby_waypoints dPt dLine table dwp.location awp.location maxdev)
          with _ | s3
      · rfl
      · simp [List.filter_cons, hybridSuggestion_stype hho]
    rw [List.filter_cons, List.filter_append, List.filter_append, hfa, hfv, hfh,
      List.nil_append]
    rw [if_pos (by rw [directSuggestion_stype]; decide)]

/-- The two-waypoint fixture used to instantiate the suggestion-engine
theorem. -/
def c6Table : List (Waypoint ℚ) :=
  [⟨"THR", "Tehran", ⟨0, 0⟩, true⟩, ⟨"MHD", "Mashhad", ⟨3, 4⟩, true⟩]

/-- C6 witness: both endpoints resolve against the two-waypoint fixture
(with zero geometry oracles and no airway segments), so the engine
produces a result with the claimed shape. -/
theorem c6_suggest_routes_spec_witness :
    ∃ r, suggest_routes (fun _ _ => (0 : ℚ)) (fun _ _ _ => 0) c6Table []
        "THR" "MHD" 100 = some r ∧
      1 ≤ r.suggestions.length ∧ r.suggestions.length ≤ 4 ∧
      "DIRECT" ∈ r.suggestions.map Suggestion.stype ∧
      (find_route (build_graph ([] : List (Segment ℚ))) "THR" "MHD" = none →
        "AIRWAY_NETWORK" ∉ r.suggestions.map Suggestion.stype) ∧
      r.suggestions.filter (fun s => s.stype != "AIRWAY_NETWORK") =
        directSuggestion "THR" "MHD" ((0 : ℚ) * (6011 / 100)) ::
          ((viaSuggestion (fun _ _ => (0 : ℚ)) c6Table "THR" "MHD"
              ((0 : ℚ) * (6011 / 100))
              (find_nearby_waypoints (fun _ _ => (0 : ℚ)) (fun _ _ _ => 0) c6Table
                ⟨0, 0⟩ ⟨3, 4⟩ 100)).toList ++
           (hybridSuggestion (fun _ _ => (0 : ℚ)) c6Table "THR" "MHD"
              ((0 : ℚ) * (6011 / 100))
              (find_nearby_waypoints (fun _ _ => (0 : ℚ)) (fun _ _ _ => 0) c6Table
                ⟨0, 0⟩ ⟨3, 4⟩ 100)).toList) :=
  c6_suggest_routes_spec ℚ (fun _ _ => 0) (fun _ _ _ => 0) c6Table [] "THR" "MHD"
    100 ⟨"THR", "Tehran", ⟨0, 0⟩, true⟩ ⟨"MHD", "Mashhad", ⟨3, 4⟩, true⟩ rfl rfl

/-! ### Claim C8: unresolved intermediate waypoints under normalization -/

/-- Spec-side: the resolvable subsequence of a waypoint list, as locations
in original relative order. -/
def specResolvedCoords {α : Type} (table : List (Waypoint α))
    (waypoints : List String) : List (Point α) :=
  waypoints.filterMap (fun wid => (lookupWp table wid).map (·.location))

/-- Sum of scaled distances over consecutive pairs of a point list. -/
def pairAdjSum {α : Type} [LinearOrderedField α]
    (dPt : Point α → Point α → α) : List (Point α) → α
  | p :: q :: rest => dPt p q * (6011 / 100) + pairAdjSum dPt (q :: rest)
  | _ => 0

/-- The claim's reading of the normalized distance: pairwise distance along
the resolvable subsequence. -/
def specSubseqDistance {α : Type} [LinearOrderedField α]
    (dPt : Point α → Point α → α) (table : List (Waypoint α))
    (waypoints : List String) : α :=
  pairAdjSum dPt (specResolvedCoords table waypoints)

/-- Spec-side restatement of what the code actually does: sum over
consecutive pairs of the original list both of whose members resolve. -/
def specGapSum {α : Type} [LinearOrderedField α]
    (dPt : Point α → Point α → α) (table : List (Waypoint α))
    (waypoints : List String) : α :=
  ((waypoints.zip waypoints.tail).map (fun pr =>
    match lookupWp table pr.1, lookupWp table pr.2 with
    | some w1, some w2 => dPt w1.location w2.location * (6011 / 100)
    | _, _ => 0)).sum

theorem pairGapSum_eq_specGapSum {α : Type} [LinearOrderedField α]
    (dPt : Point α → Point α → α) (table : List (Waypoint α)) :
    ∀ ws : List String, pairGapSum dPt table ws = specGapSum dPt table ws
  | [] => rfl
  | [_] => rfl
  | a :: b :: rest => by
    unfold pairGapSum
    rw [pairGapSum_eq_specGapSum dPt table (b :: rest)]
    unfold specGapSum
    simp only [List.tail_cons, List.zip_cons_cons, List.map_cons, List.sum_cons]

/-- C8 (amended): saving a route whose endpoints are already listed keeps
`waypoints` unchanged (unresolved identifiers included), sets
`coordinates` to the locations of the resolvable waypoints in original
order, and computes `total_distance` only over consecutive pairs of the
*original* list in which both identifiers resolve — pairs straddling an
unresolved identifier contribute nothing (this differs from summing along
the resolvable subsequence). -/
theorem c8_unresolved_waypoint_handling (α : Type) [LinearOrderedField α]
    [FloorRing α] (dPt : Point α → Point α → α) (table : List (Waypoint α))
    (r : Route α) (hdep : r.departure ∈ r.waypoints)
    (harr : r.arrival ∈ r.waypoints) (hlen : 2 ≤ r.waypoints.length)
    (hres : 2 ≤ (specResolvedCoords table r.waypoints).length) :
    (routeSave dPt table r).waypoints = r.waypoints ∧
    (routeSave dPt table r).coordinates =
      some (specResolvedCoords table r.waypoints) ∧
    (routeSave dPt table r).total_distance =
      pyRound (specGapSum dPt table r.waypoints) 2 := by
  have hne : ¬ r.waypoints.isEmpty := by
    cases hw : r.waypoints with
    | nil => rw [hw] at hlen; exact absurd hlen (by simp)
    | cons a l => simp
  refine ⟨?_, ?_, ?_⟩
  · simp only [routeSave, injectEndpoints]
    rw [if_neg (by simpa using hne), if_pos hdep, if_pos harr]
  · simp only [routeSave]
    rw [if_pos ⟨hne, hlen⟩]
    unfold calculate_coordinates
    rw [if_neg (by omega)]
    unfold specResolvedCoords at hres ⊢
    rw [if_pos hres]
  · simp only [routeSave]
    rw [if_pos ⟨hne, hlen⟩]
    unfold calculate_distance
    rw [if_neg (by omega)]
    rw [pairGapSum_eq_specGapSum]

/-- C8 witness: a route `[WPA, XXX, WPB]` over a table resolving only
`WPA` and `WPB`; the saved route keeps `XXX` in `waypoints`, drops it from
`coordinates`, and computes the gap-skipping distance. -/
theorem c8_unresolved_waypoint_handling_witness :
    (routeSave (fun _ _ => (7 : ℚ)) [⟨"WPA", "A", ⟨0, 0⟩, true⟩, ⟨"WPB", "B", ⟨3, 4⟩, true⟩]
        { name := "R", departure := "WPA", arrival := "WPB",
          waypoints := ["WPA", "XXX", "WPB"], coordinates := none,
          total_distance := 0, flight_time := "" }).waypoints = ["WPA", "XXX", "WPB"] ∧
    (routeSave (fun _ _ => (7 : ℚ)) [⟨"WPA", "A", ⟨0, 0⟩, true⟩, ⟨"WPB", "B", ⟨3, 4⟩, true⟩]
        { name := "R", departure := "WPA", arrival := "WPB",
          waypoints := ["WPA", "XXX", "WPB"], coordinates := none,
          total_distance := 0, flight_time := "" }).coordinates =
      some (specResolvedCoords [⟨"WPA", "A", ⟨0, 0⟩, true⟩, ⟨"WPB", "B", ⟨3, 4⟩, true⟩]
        ["WPA", "XXX", "WPB"]) ∧
    (routeSave (fun _ _ => (7 : ℚ)) [⟨"WPA", "A", ⟨0, 0⟩, true⟩, ⟨"WPB", "B", ⟨3, 4⟩, true⟩]
        { name := "R", departure := "WPA", arrival := "WPB",
          waypoints := ["WPA", "XXX", "WPB"], coordinates := none,
          total_distance := 0, flight_time := "" }).total_distance =
      pyRound (specGapSum (fun _ _ => (7 : ℚ))
        [⟨"WPA", "A", ⟨0, 0⟩, true⟩, ⟨"WPB", "B", ⟨3, 4⟩, true⟩]
        ["WPA", "XXX", "WPB"]) 2 :=
  c8_unresolved_waypoint_handling ℚ (fun _ _ => 7)
    [⟨"WPA", "A", ⟨0, 0⟩, true⟩, ⟨"WPB", "B", ⟨3, 4⟩, true⟩]
    { name := "R", departure := "WPA", arrival := "WPB",
      waypoints := ["WPA", "XXX", "WPB"], coordinates := none,
      total_distance := 0, flight_time := "" }
    (by decide) (by decide) (by decide) (by rfl)

/-- C8 (counterexample): with `WPA` at (0,0), `WPB` at (3,4) and the
unresolved `XXX` between them, the saved `total_distance` is 0 — both
consecutive pairs straddle the unresolved identifier — while the distance
along the resolvable subsequence is 300.55 nm, so `total_distance` is not
"computed over the resolvable subsequence" as claimed. -/
theorem c8_counterexample_gap_zero :
    (routeSave geosPointDist
        [⟨"WPA", "A", ⟨0, 0⟩, true⟩, ⟨"WPB", "B", ⟨3, 4⟩, true⟩]
        { name := "R", departure := "WPA", arrival := "WPB",
          waypoints := ["WPA", "XXX", "WPB"], coordinates := none,
          total_distance := 0, flight_time := "" }).total_distance = 0 ∧
    pyRound (specSubseqDistance geosPointDist
        [⟨"WPA", "A", ⟨0, 0⟩, true⟩, ⟨"WPB", "B", ⟨3, 4⟩, true⟩]
        ["WPA", "XXX", "WPB"]) 2 = 30055 / 100 ∧
    (0 : ℝ) ≠ 30055 / 100 := by
  refine ⟨?_, ?_, by norm_num⟩
  · simp only [routeSave]
    rw [if_pos (by constructor <;> simp)]
    unfold calculate_distance
    rw [if_neg (by simp)]
    have hsum : pairGapSum geosPointDist
        [⟨"WPA", "A", ⟨0, 0⟩, true⟩, ⟨"WPB", "B", ⟨3, 4⟩, true⟩]
        ["WPA", "XXX", "WPB"] = 0 := by
      simp [pairGapSum, lookupWp, List.find?]
    rw [hsum]
    unfold pyRound pyRoundInt
    norm_num
  · have hcoords : specResolvedCoords
        [(⟨"WPA", "A", ⟨0, 0⟩, true⟩ : Waypoint ℝ), ⟨"WPB", "B", ⟨3, 4⟩, true⟩]
        ["WPA", "XXX", "WPB"] = [⟨0, 0⟩, ⟨3, 4⟩] := by
      simp [specResolvedCoords, lookupWp, List.find?]
    have hgeos : geosPointDist ⟨0, 0⟩ ⟨3, 4⟩ = 5 := by
      unfold geosPointDist
      rw [show ((0 : ℝ) - 3) ^ 2 + ((0 : ℝ) - 4) ^ 2 = 5 ^ 2 by norm_num]
      exact Real.sqrt_sq (by norm_num)
    unfold specSubseqDistance
    rw [hcoords]
    simp only [pairAdjSum]
    rw [hgeos]
    rw [show (5 : ℝ) * (6011 / 100) + 0 = (30055 : ℤ) / (10 : ℝ) ^ 2 by push_cast; ring]
    rw [pyRound_intCast_div]
    push_cast
    norm_num

/-! ### Claim C1: the persisted-route distance is not haversine -/

theorem pyRound_zero {α : Type} [LinearOrderedField α] [FloorRing α] (n : ℕ) :
    pyRound (0 : α) n = 0 := by
  unfold pyRound
  rw [zero_mul, show ((0 : α)) = ((0 : ℤ) : α) by norm_num, pyRoundInt_intCast]
  norm_num

theorem sqrt162000_lb : (402 : ℝ) ≤ Real.sqrt 162000 := by
  nlinarith [Real.sq_sqrt (show (0 : ℝ) ≤ 162000 by norm_num),
    Real.sqrt_nonneg (162000 : ℝ)]

/-- C1 (code bug): `Route.save` computes `total_distance` with the
degree-difference × 60.11 scaling (`Route.calculate_distance`), not the
haversine formula.  On a route between the coordinate pairs
`(-180, -90)` and `(180, 90)` the saved distance exceeds the haversine
distance by more than 13000 nautical miles (≈24164 vs ≤10837), so the two
can never agree no matter how the haversine sum is rounded. -/
theorem c1_saved_distance_not_haversine :
    calculate_distance geosPointDist
        [⟨"P1", "South", ⟨-180, -90⟩, true⟩, ⟨"P2", "North", ⟨180, 90⟩, true⟩]
        ["P1", "P2"] >
      calculate_distance_nm ⟨-180, -90⟩ ⟨180, 90⟩ + 13000 ∧
    calculate_distance geosPointDist
        [⟨"P1", "South", ⟨-180, -90⟩, true⟩, ⟨"P2", "North", ⟨180, 90⟩, true⟩]
        ["P1", "P2"] ≠
      calculate_distance_nm ⟨-180, -90⟩ ⟨180, 90⟩ := by
  have hgeos : geosPointDist ⟨-180, -90⟩ ⟨180, 90⟩ = Real.sqrt 162000 := by
    unfold geosPointDist
    norm_num
  have hsum : pairGapSum geosPointDist
      [⟨"P1", "South", ⟨-180, -90⟩, true⟩, ⟨"P2", "North", ⟨180, 90⟩, true⟩]
      ["P1", "P2"] = Real.sqrt 162000 * (6011 / 100) := by
    simp [pairGapSum, lookupWp, List.find?, hgeos]
  have hcode : calculate_distance geosPointDist
      [⟨"P1", "South", ⟨-180, -90⟩, true⟩, ⟨"P2", "North", ⟨180, 90⟩, true⟩]
      ["P1", "P2"] = pyRound (Real.sqrt 162000 * (6011 / 100)) 2 := by
    unfold calculate_distance
    rw [if_neg (by simp), hsum]
  have hlb : (24164 : ℝ) ≤ calculate_distance geosPointDist
      [⟨"P1", "South", ⟨-180, -90⟩, true⟩, ⟨"P2", "North", ⟨180, 90⟩, true⟩]
      ["P1", "P2"] := by
    rw [hcode]
    have h1 := le_pyRound (Real.sqrt 162000 * (6011 / 100)) 2
    have h2 : (402 : ℝ) * (6011 / 100) ≤ Real.sqrt 162000 * (6011 / 100) := by
      nlinarith [sqrt162000_lb]
    norm_num at h1 h2 ⊢
    nlinarith
  have hhav : calculate_distance_nm ⟨-180, -90⟩ ⟨180, 90⟩ ≤ 10837 := by
    have h1 := calculate_distance_nm_le (⟨-180, -90⟩ : Point ℝ) ⟨180, 90⟩
    have h2 : Real.pi < 3.15 := Real.pi_lt_315
    nlinarith
  constructor
  · nlinarith
  · intro heq
    rw [heq] at hlb
    nlinarith

/-! ### Claim C7: the `VIA_WAYPOINTS` distance is not geodetic -/

/-- Three-waypoint fixture: the two poles plus the origin, which lies on
the planar segment between them. -/
def c7Table : List (Waypoint ℝ) :=
  [⟨"AAA", "A", ⟨-180, -90⟩, true⟩, ⟨"BBB", "B", ⟨180, 90⟩, true⟩,
   ⟨"MID", "M", ⟨0, 0⟩, true⟩]

theorem sqrt40500_lb : (201 : ℝ) ≤ Real.sqrt 40500 := by
  nlinarith [Real.sq_sqrt (show (0 : ℝ) ≤ 40500 by norm_num),
    Real.sqrt_nonneg (40500 : ℝ)]

theorem sqrt162000_eq : Real.sqrt 162000 = 2 * Real.sqrt 40500 := by
  rw [show (162000 : ℝ) = 2 ^ 2 * 40500 by norm_num,
    Real.sqrt_mul (by positivity), Real.sqrt_sq (by norm_num)]

theorem geos_AB_eval : geosPointDist ⟨-180, -90⟩ ⟨180, 90⟩ = Real.sqrt 162000 := by
  unfold geosPointDist
  norm_num

theorem geos_BA_eval : geosPointDist ⟨180, 90⟩ ⟨-180, -90⟩ = Real.sqrt 162000 := by
  unfold geosPointDist
  norm_num

theorem geos_AM_eval : geosPointDist ⟨-180, -90⟩ ⟨0, 0⟩ = Real.sqrt 40500 := by
  unfold geosPointDist
  norm_num

theorem geos_MA_eval : geosPointDist ⟨0, 0⟩ ⟨-180, -90⟩ = Real.sqrt 40500 := by
  unfold geosPointDist
  norm_num

theorem geos_MB_eval : geosPointDist ⟨0, 0⟩ ⟨180, 90⟩ = Real.sqrt 40500 := by
  unfold geosPointDist
  norm_num

theorem geos_AA_eval : geosPointDist ⟨-180, -90⟩ ⟨-180, -90⟩ = 0 := by
  unfold geosPointDist
  norm_num

theorem seg_A_eval : geosSegDist ⟨-180, -90⟩ ⟨-180, -90⟩ ⟨180, 90⟩ = 0 := by
  unfold geosSegDist
  rw [if_neg (by norm_num)]
  norm_num [geosPointDist]

theorem seg_B_eval : geosSegDist ⟨180, 90⟩ ⟨-180, -90⟩ ⟨180, 90⟩ = 0 := by
  unfold geosSegDist
  rw [if_neg (by norm_num)]
  norm_num [geosPointDist]

theorem seg_M_eval : geosSegDist ⟨0, 0⟩ ⟨-180, -90⟩ ⟨180, 90⟩ = 0 := by
  unfold geosSegDist
  rw [if_neg (by norm_num)]
  norm_num [geosPointDist]

theorem c7_nearby_eval :
    find_nearby_waypoints geosPointDist geosSegDist c7Table ⟨-180, -90⟩ ⟨180, 90⟩ 100 =
      [⟨⟨"AAA", "A", ⟨-180, -90⟩, true⟩, 0, 0⟩,
       ⟨⟨"MID", "M", ⟨0, 0⟩, true⟩, 0, pyRound (Real.sqrt 40500 * (6011 / 100)) 1⟩,
       ⟨⟨"BBB", "B", ⟨180, 90⟩, true⟩, 0, pyRound (Real.sqrt 162000 * (6011 / 100)) 1⟩] := by
  have hHc : (12082 : ℝ) ≤ Real.sqrt 40500 * (6011 / 100) := by
    nlinarith [sqrt40500_lb]
  have hrHc_lb : (12081 : ℝ) ≤ pyRound (Real.sqrt 40500 * (6011 / 100)) 1 := by
    have := le_pyRound (Real.sqrt 40500 * (6011 / 100)) 1
    norm_num at this
    nlinarith
  have hrHc_ub : pyRound (Real.sqrt 40500 * (6011 / 100)) 1 ≤
      Real.sqrt 40500 * (6011 / 100) + 1 / 10 := by
    have := pyRound_le (Real.sqrt 40500 * (6011 / 100)) 1
    norm_num at this ⊢
    nlinarith
  have hrDc_lb : 2 * (Real.sqrt 40500 * (6011 / 100)) - 1 / 10 ≤
      pyRound (Real.sqrt 162000 * (6011 / 100)) 1 := by
    have h := le_pyRound (Real.sqrt 162000 * (6011 / 100)) 1
    rw [sqrt162000_eq] at h ⊢
    norm_num at h ⊢
    linarith
  unfold find_nearby_waypoints c7Table
  rw [show (([⟨"AAA", "A", ⟨-180, -90⟩, true⟩, ⟨"BBB", "B", ⟨180, 90⟩, true⟩,
      ⟨"MID", "M", ⟨0, 0⟩, true⟩] : List (Waypoint ℝ)).filter
        (fun w => w.is_active)) =
      [⟨"AAA", "A", ⟨-180, -90⟩, true⟩, ⟨"BBB", "B", ⟨180, 90⟩, true⟩,
       ⟨"MID", "M", ⟨0, 0⟩, true⟩] from rfl]
  rw [List.filterMap_cons, List.filterMap_cons, List.filterMap_cons,
    List.filterMap_nil]
  simp only [seg_A_eval, seg_B_eval, seg_M_eval, geos_AA_eval, geos_BA_eval,
    geos_MA_eval, zero_mul, pyRound_zero]
  rw [if_pos (by norm_num : (0 : ℝ) ≤ 100), if_pos (by norm_num : (0 : ℝ) ≤ 100),
    if_pos (by norm_num : (0 : ℝ) ≤ 100)]
  simp only [List.insertionSort, List.orderedInsert]
  have hkBM : ¬ keyLE
      (⟨⟨"BBB", "B", ⟨180, 90⟩, true⟩, 0,
        pyRound (Real.sqrt 162000 * (6011 / 100)) 1⟩ : NearbyEntry ℝ)
      ⟨⟨"MID", "M", ⟨0, 0⟩, true⟩, 0, pyRound (Real.sqrt 40500 * (6011 / 100)) 1⟩ := by
    unfold keyLE
    push_neg
    refine ⟨by norm_num, fun _ => ?_⟩
    nlinarith
  have hkAM : keyLE
      (⟨⟨"AAA", "A", ⟨-180, -90⟩, true⟩, 0, 0⟩ : NearbyEntry ℝ)
      ⟨⟨"MID", "M", ⟨0, 0⟩, true⟩, 0, pyRound (Real.sqrt 40500 * (6011 / 100)) 1⟩ := by
    unfold keyLE
    refine Or.inr ⟨rfl, ?_⟩
    nlinarith
  rw [if_neg hkBM]
  simp only [List.orderedInsert]
  rw [if_pos hkAM]

theorem c7_via_eval :
    viaSuggestion geosPointDist c7Table "AAA" "BBB"
        (geosPointDist ⟨-180, -90⟩ ⟨180, 90⟩ * (6011 / 100))
        (find_nearby_waypoints geosPointDist geosSegDist c7Table
          ⟨-180, -90⟩ ⟨180, 90⟩ 100) =
      some { stype := "VIA_WAYPOINTS"
             waypoints := ["AAA", "MID", "BBB"]
             total_distance_nm :=
               pyRound (pairDistSum geosPointDist c7Table ["AAA", "MID", "BBB"]) 1
             flight_time_min :=
               pyRoundInt (pairDistSum geosPointDist c7Table ["AAA", "MID", "BBB"] / 470 * 60)
             intermediate_points := some ["MID"] } := by
  have hHc : (12082 : ℝ) ≤ Real.sqrt 40500 * (6011 / 100) := by
    nlinarith [sqrt40500_lb]
  have hrHc_lb : (12081 : ℝ) ≤ pyRound (Real.sqrt 40500 * (6011 / 100)) 1 := by
    have := le_pyRound (Real.sqrt 40500 * (6011 / 100)) 1
    norm_num at this
    nlinarith
  have hrHc_ub : pyRound (Real.sqrt 40500 * (6011 / 100)) 1 ≤
      Real.sqrt 40500 * (6011 / 100) + 1 / 10 := by
    have := pyRound_le (Real.sqrt 40500 * (6011 / 100)) 1
    norm_num at this ⊢
    nlinarith
  have hrDc_lb : 2 * (Real.sqrt 40500 * (6011 / 100)) - 1 / 10 ≤
      pyRound (Real.sqrt 162000 * (6011 / 100)) 1 := by
    have h := le_pyRound (Real.sqrt 162000 * (6011 / 100)) 1
    rw [sqrt162000_eq] at h ⊢
    norm_num at h ⊢
    linarith
  have hdirect : geosPointDist (⟨-180, -90⟩ : Point ℝ) ⟨180, 90⟩ * (6011 / 100) =
      2 * (Real.sqrt 40500 * (6011 / 100)) := by
    rw [geos_AB_eval, sqrt162000_eq]
    ring
  rw [c7_nearby_eval]
  have hsel : viaSelected
      [⟨⟨"AAA", "A", ⟨-180, -90⟩, true⟩, 0, 0⟩,
       ⟨⟨"MID", "M", ⟨0, 0⟩, true⟩, 0, pyRound (Real.sqrt 40500 * (6011 / 100)) 1⟩,
       ⟨⟨"BBB", "B", ⟨180, 90⟩, true⟩, 0, pyRound (Real.sqrt 162000 * (6011 / 100)) 1⟩]
      (geosPointDist ⟨-180, -90⟩ ⟨180, 90⟩ * (6011 / 100)) =
      [⟨"MID", "M", ⟨0, 0⟩, true⟩] := by
    unfold viaSelected
    rw [List.filter_cons, List.filter_cons, List.filter_cons, List.filter_nil]
    rw [decide_eq_false (by rintro ⟨h1, -⟩; norm_num at h1)]
    rw [decide_eq_true (show (50 : ℝ) <
        pyRound (Real.sqrt 40500 * (6011 / 100)) 1 ∧
        pyRound (Real.sqrt 40500 * (6011 / 100)) 1 <
          geosPointDist ⟨-180, -90⟩ ⟨180, 90⟩ * (6011 / 100) - 50 by
      rw [hdirect]
      constructor
      · nlinarith
      · nlinarith)]
    rw [decide_eq_false (show ¬ ((50 : ℝ) <
        pyRound (Real.sqrt 162000 * (6011 / 100)) 1 ∧
        pyRound (Real.sqrt 162000 * (6011 / 100)) 1 <
          geosPointDist ⟨-180, -90⟩ ⟨180, 90⟩ * (6011 / 100) - 50) by
      rintro ⟨-, h2⟩
      rw [hdirect] at h2
      nlinarith)]
    simp
  unfold viaSuggestion
  rw [if_neg (by simp), hsel, if_neg (by simp)]
  simp

/-- C7 (code bug): on the pole fixture, `suggest_routes` produces the
`VIA_WAYPOINTS` suggestion `[AAA, MID, BBB]`, but its distance is the
degree-difference × 60.11 sum (≈24164 nm), not the rounded sum of the
consecutive-pair haversine distances (≤21673 nm): the two differ. -/
theorem c7_via_distance_not_geodetic :
    ∃ r, suggest_routes geosPointDist geosSegDist c7Table [] "AAA" "BBB" 100 =
        some r ∧
      ∃ s ∈ r.suggestions, s.stype = "VIA_WAYPOINTS" ∧
        s.waypoints = ["AAA", "MID", "BBB"] ∧
        s.total_distance_nm ≠
          pyRound (calculate_distance_nm ⟨-180, -90⟩ ⟨0, 0⟩ +
            calculate_distance_nm ⟨0, 0⟩ ⟨180, 90⟩) 1 := by
  have hpds : pairDistSum geosPointDist c7Table ["AAA", "MID", "BBB"] =
      Real.sqrt 40500 * (6011 / 100) + (Real.sqrt 40500 * (6011 / 100) + 0) := by
    simp [pairDistSum, lookupWp, List.find?, c7Table, geos_AM_eval, geos_MB_eval]
  have hHc : (12082 : ℝ) ≤ Real.sqrt 40500 * (6011 / 100) := by
    nlinarith [sqrt40500_lb]
  have hne : pyRound (pairDistSum geosPointDist c7Table ["AAA", "MID", "BBB"]) 1 ≠
      pyRound (calculate_distance_nm ⟨-180, -90⟩ ⟨0, 0⟩ +
        calculate_distance_nm ⟨0, 0⟩ ⟨180, 90⟩) 1 := by
    have hlb := le_pyRound (pairDistSum geosPointDist c7Table ["AAA", "MID", "BBB"]) 1
    rw [hpds] at hlb
    have hub := pyRound_le (calculate_distance_nm ⟨-180, -90⟩ ⟨0, 0⟩ +
      calculate_distance_nm (⟨0, 0⟩ : Point ℝ) ⟨180, 90⟩) 1
    have h1 := calculate_distance_nm_le (⟨-180, -90⟩ : Point ℝ) ⟨0, 0⟩
    have h2 := calculate_distance_nm_le (⟨0, 0⟩ : Point ℝ) ⟨180, 90⟩
    have hpi : Real.pi < 3.15 := Real.pi_lt_315
    intro heq
    rw [hpds] at heq
    rw [heq] at hlb
    norm_num at hlb hub h1 h2 hpi
    nlinarith
  refine ⟨_, rfl, ?_⟩
  refine ⟨?_, ?_, ?_, ?_, ?_⟩
  rotate_left
  · refine List.mem_cons.mpr (Or.inr (List.mem_append.mpr
      (Or.inl (List.mem_append.mpr (Or.inr ?_)))))
    show _ ∈ (viaSuggestion geosPointDist c7Table "AAA" "BBB"
        (geosPointDist (⟨-180, -90⟩ : Point ℝ) ⟨180, 90⟩ * (6011 / 100))
        (find_nearby_waypoints geosPointDist geosSegDist c7Table
          ⟨-180, -90⟩ ⟨180, 90⟩ 100)).toList
    rw [c7_via_eval]
    exact List.mem_singleton_self _
  · rfl
  · rfl
  · exact hne

end FlightFuel
